import Mathlib

/-!
Verification of the CDP (Caption Distribution Packet, SMPTE 334-2) envelope
codec from the cdp-types repository.  Bytes are modelled as `Nat` values
(inputs are constrained to `< 256` where it matters); byte buffers are
`List Nat`.  Fallible Rust code returning `Result` is modelled with
`Except`; the one Rust operation that can abort (an unchecked slice) is
modelled with an `Option` wrapper where `none` marks the abort.

The repository carries two variants of the parser and writer: a newer one
in `src/parser.rs` / `src/writer.rs` and an older inline one in
`src/lib.rs`.  The newer variant is embedded in full; the older one is
embedded where it differs (its service-information branch and its flag
derivation).
-/

/-- Error type mirroring `ParserError` in `src/lib.rs` lines 21-59. -/
inductive ParserError where
  | lengthMismatch (expected actual : Nat)
  | wrongMagic
  | unknownFramerate
  | invalidFixedBits
  | cea608AfterCea708
  | checksumFailed
  | sequenceCountMismatch
  | serviceNumberMismatch
  | invalidServiceNumber
  | serviceFlagsMismatched
deriving DecidableEq, Repr

deriving instance DecidableEq for Except

/-- Writer-side error, mirroring `cea708_types::WriterError` as used by
`ServiceInfo::add_service` in `src/svc.rs`. -/
inductive WriterError where
  | wouldOverflow (n : Nat)
deriving DecidableEq, Repr

/-- Mirrors `struct Framerate` in `src/lib.rs` lines 120-125. -/
structure Framerate where
  id : Nat
  numer : Nat
  denom : Nat
deriving DecidableEq, Repr

/-- Mirrors the static `FRAMERATES` table in `src/lib.rs` lines 76-117. -/
def FRAMERATES : List Framerate :=
  [⟨0x1, 24000, 1001⟩, ⟨0x2, 24, 1⟩, ⟨0x3, 25, 1⟩, ⟨0x4, 30000, 1001⟩,
   ⟨0x5, 30, 1⟩, ⟨0x6, 50, 1⟩, ⟨0x7, 60000, 1001⟩, ⟨0x8, 60, 1⟩]

/-- Mirrors `Framerate::from_id` in `src/lib.rs` lines 130-132. -/
def Framerate.from_id (id : Nat) : Option Framerate :=
  FRAMERATES.find? (fun f => f.id == id)

/-- Mirrors `struct Flags` in `src/lib.rs` lines 151-160. -/
structure Flags where
  time_code : Bool
  cc_data : Bool
  svc_info : Bool
  svc_info_start : Bool
  svc_info_change : Bool
  svc_info_complete : Bool
  caption_service_active : Bool
  reserved : Bool
deriving DecidableEq, Repr

/-- Mirrors `impl From<u8> for Flags` in `src/lib.rs` lines 172-185. -/
def Flags.ofByte (value : Nat) : Flags where
  time_code := value &&& 0x80 != 0
  cc_data := value &&& 0x40 != 0
  svc_info := value &&& 0x20 != 0
  svc_info_start := value &&& 0x10 != 0
  svc_info_change := value &&& 0x08 != 0
  svc_info_complete := value &&& 0x04 != 0
  caption_service_active := value &&& 0x02 != 0
  reserved := value &&& 0x01 != 0

/-- Mirrors `struct TimeCode` as used by `src/parser.rs` / `src/writer.rs`
(`field` is a boolean in that variant). -/
structure TimeCode where
  hours : Nat
  minutes : Nat
  seconds : Nat
  frames : Nat
  field : Bool
  drop_frame : Bool
deriving DecidableEq, Repr

/-- Mirrors `struct DigitalServiceEntry` in `src/svc.rs` lines 308-313
(`wideAspect` stands for the source field `wide_aspect` + `_ratio`). -/
structure DigitalServiceEntry where
  service : Nat
  easy_reader : Bool
  wideAspect : Bool
deriving DecidableEq, Repr

/-- Mirrors `enum FieldOrService` in `src/svc.rs` lines 300-306. -/
inductive FieldOrService where
  | Field (field1 : Bool)
  | Service (digital : DigitalServiceEntry)
deriving DecidableEq, Repr

/-- Mirrors `struct ServiceEntry` in `src/svc.rs` lines 206-210; the
3-byte language code is a triple of bytes. -/
structure ServiceEntry where
  language : Nat × Nat × Nat
  service : FieldOrService
deriving DecidableEq, Repr

/-- Mirrors `struct ServiceInfo` in `src/svc.rs` lines 10-16. -/
structure ServiceInfo where
  start : Bool
  change : Bool
  complete : Bool
  services : List ServiceEntry
deriving DecidableEq, Repr

/-- Mirrors `ServiceInfo::default()` (all fields false / empty). -/
def ServiceInfo.default : ServiceInfo := ⟨false, false, false, []⟩

/-- Mirrors `ServiceEntry::parse` in `src/svc.rs` lines 219-252; `data` is
the 6-byte window passed by the caller. -/
def ServiceEntry.parse (data : List Nat) : Except ParserError ServiceEntry :=
  let b3 := data.getD 3 0
  let digital_cc := b3 &&& 0x80 != 0
  if b3 &&& 0x40 ≠ 0x40 then .error .invalidFixedBits
  else
    let atsc_service_no := b3 &&& 0x3f
    let b4 := data.getD 4 0
    let easy_reader := b4 &&& 0x80 != 0
    let wideAspect := b4 &&& 0x40 != 0
    let service? : Except ParserError FieldOrService :=
      if digital_cc then
        if atsc_service_no = 0 then .error .invalidServiceNumber
        else .ok (.Service ⟨atsc_service_no, easy_reader, wideAspect⟩)
      else
        if b3 &&& 0x3e ≠ 0x3e then .error .invalidFixedBits
        else .ok (.Field (atsc_service_no &&& 0x01 == 0))
    match service? with
    | .error e => .error e
    | .ok service =>
      if b4 &&& 0x3f ≠ 0x3f then .error .invalidFixedBits
      else if data.getD 5 0 ≠ 0xff then .error .invalidFixedBits
      else .ok ⟨(data.getD 0 0, data.getD 1 0, data.getD 2 0), service⟩

/-- Mirrors the per-entry loop of `ServiceInfo::parse` in `src/svc.rs`
lines 51-81: `data` is the remaining byte window, each iteration consumes
7 bytes. -/
def parseSvcEntries (data : List Nat) (count : Nat) : Except ParserError (List ServiceEntry) :=
  match count with
  | 0 => .ok []
  | n + 1 =>
    let b0 := data.getD 0 0
    if b0 &&& 0x80 ≠ 0x80 then .error .invalidFixedBits
    else
      let service_large := b0 &&& 0x40 != 0
      let service_no? : Except ParserError Nat :=
        if service_large then
          if b0 &&& 0x20 ≠ 0x20 then .error .invalidFixedBits
          else .ok (b0 &&& 0x1f)
        else .ok (b0 &&& 0x3f)
      match service_no? with
      | .error e => .error e
      | .ok service_no =>
        match ServiceEntry.parse ((data.drop 1).take 6) with
        | .error e => .error e
        | .ok entry =>
          let numberOk : Except ParserError Unit :=
            match entry.service with
            | .Service digital =>
              if digital.service ≠ service_no then .error .serviceNumberMismatch else .ok ()
            | .Field _ =>
              if service_no ≠ 0 then .error .serviceNumberMismatch else .ok ()
          match numberOk with
          | .error e => .error e
          | .ok _ =>
            match parseSvcEntries (data.drop 7) n with
            | .error e => .error e
            | .ok rest => .ok (entry :: rest)

/-- Mirrors `ServiceInfo::parse` in `src/svc.rs` lines 20-83. -/
def ServiceInfo.parse (data : List Nat) : Except ParserError ServiceInfo :=
  if data.length < 2 then .error (.lengthMismatch 2 data.length)
  else if data.getD 0 0 ≠ 0x73 then .error .wrongMagic
  else if data.getD 1 0 &&& 0x80 ≠ 0x80 then .error .invalidFixedBits
  else
    let svc_count := data.getD 1 0 &&& 0xf
    let expected := svc_count * 7 + 2
    if data.length ≠ expected then .error (.lengthMismatch expected data.length)
    else
      match parseSvcEntries (data.drop 2) svc_count with
      | .error e => .error e
      | .ok services =>
        .ok ⟨data.getD 1 0 &&& 0x40 != 0, data.getD 1 0 &&& 0x20 != 0,
             data.getD 1 0 &&& 0x10 != 0, services⟩

/-- Mirrors `ServiceInfo::is_start` (`src/svc.rs` line 86). -/
def ServiceInfo.is_start (si : ServiceInfo) : Bool := si.start

/-- Mirrors `ServiceInfo::is_change` (`src/svc.rs` line 97). -/
def ServiceInfo.is_change (si : ServiceInfo) : Bool := si.change

/-- Mirrors `ServiceInfo::is_complete` (`src/svc.rs` line 111). -/
def ServiceInfo.is_complete (si : ServiceInfo) : Bool := si.complete

/-- Mirrors `ServiceInfo::set_start` in `src/svc.rs` lines 91-93. -/
def ServiceInfo.set_start (si : ServiceInfo) (start : Bool) : ServiceInfo :=
  { si with start := start }

/-- Mirrors `ServiceInfo::set_change` in `src/svc.rs` lines 103-108: when
`change` is set to true, `start` is forced to true as well. -/
def ServiceInfo.set_change (si : ServiceInfo) (change : Bool) : ServiceInfo :=
  { si with change := change, start := if change then true else si.start }

/-- Mirrors `ServiceInfo::set_complete` in `src/svc.rs` lines 116-118. -/
def ServiceInfo.set_complete (si : ServiceInfo) (complete : Bool) : ServiceInfo :=
  { si with complete := complete }

/-- Mirrors `ServiceInfo::clear_services` in `src/svc.rs` lines 126-128. -/
def ServiceInfo.clear_services (si : ServiceInfo) : ServiceInfo :=
  { si with services := [] }

/-- Mirrors `ServiceInfo::add_service` in `src/svc.rs` lines 131-137: at
15 entries the result is an error and the state is unchanged. -/
def ServiceInfo.add_service (si : ServiceInfo) (service : ServiceEntry) :
    Except WriterError ServiceInfo :=
  if si.services.length ≥ 15 then .error (.wouldOverflow 1)
  else .ok { si with services := si.services ++ [service] }

/-- Mirrors `ServiceInfo::byte_len` in `src/svc.rs` lines 140-142. -/
def ServiceInfo.byte_len (si : ServiceInfo) : Nat := si.services.length * 7 + 2

/-- Mirrors `ServiceInfo::write_svc_header_unchecked` in `src/svc.rs`
lines 175-188 (the single descriptor-header byte for one entry). -/
def ServiceInfo.write_svc_header (svc : ServiceEntry) : Nat :=
  match svc.service with
  | .Field field => if field then 0x80 else 0x80 ||| 0x01
  | .Service digital => 0x80 ||| digital.service

/-- Mirrors `ServiceEntry::write_into_unchecked` in `src/svc.rs`
lines 270-296 (the 6 payload bytes of one entry). -/
def ServiceEntry.write_into (e : ServiceEntry) : List Nat :=
  [e.language.1, e.language.2.1, e.language.2.2] ++
    (match e.service with
     | .Field field => [if field then 0x7e else 0x7e ||| 0x01, 0x3f]
     | .Service d =>
       [0xc0 ||| d.service,
        0x3f ||| (if d.easy_reader then 0x80 else 0) ||| (if d.wideAspect then 0x40 else 0)]) ++
    [0xff]

/-- Mirrors `ServiceInfo::write_header_unchecked` in `src/svc.rs`
lines 158-173 (the 2 header bytes). -/
def ServiceInfo.write_header (si : ServiceInfo) : List Nat :=
  [0x73,
   0x80 ||| (if si.start then 0x40 else 0) ||| (if si.change then 0x20 else 0) |||
     (if si.complete then 0x10 else 0) ||| (si.services.length &&& 0xf)]

/-- Mirrors `ServiceInfo::write` / `write_into_unchecked` in `src/svc.rs`
lines 145-156 and 192-201: header followed by one 7-byte block per entry. -/
def ServiceInfo.writeBytes (si : ServiceInfo) : List Nat :=
  si.write_header ++
    (si.services.map (fun svc => ServiceInfo.write_svc_header svc :: svc.write_into)).flatten

/-- Mirrors the time-code branch of `CDPParser::parse` in `src/parser.rs`
lines 149-195; the time-code section always begins at index 7.  Returns
the parsed optional time code and the index after the section. -/
def parseTC (data : List Nat) (flags : Flags) : Except ParserError (Option TimeCode × Nat) :=
  if flags.time_code then
    if data.length < 7 + 5 then .error (.lengthMismatch (7 + 5) data.length)
    else if data.getD 7 0 ≠ 0x71 then .error .wrongMagic
    else if data.getD 8 0 &&& 0xc0 ≠ 0xc0 then .error .invalidFixedBits
    else
      let hours := ((data.getD 8 0 &&& 0x30) >>> 4) * 10 + (data.getD 8 0 &&& 0x0f)
      if data.getD 9 0 &&& 0x80 ≠ 0x80 then .error .invalidFixedBits
      else
        let minutes := ((data.getD 9 0 &&& 0x70) >>> 4) * 10 + (data.getD 9 0 &&& 0x0f)
        let field := (data.getD 10 0 &&& 0x80) >>> 7 != 0
        let seconds := ((data.getD 10 0 &&& 0x70) >>> 4) * 10 + (data.getD 10 0 &&& 0x0f)
        let drop_frame := data.getD 11 0 &&& 0x80 != 0
        if data.getD 11 0 &&& 0x40 ≠ 0x00 then .error .invalidFixedBits
        else
          let frames := ((data.getD 11 0 &&& 0x30) >>> 4) * 10 + (data.getD 11 0 &&& 0x0f)
          .ok (some ⟨hours, minutes, seconds, frames, field, drop_frame⟩, 12)
  else .ok (none, 7)

/-- Mirrors the cc-data branch of `CDPParser::parse` in `src/parser.rs`
lines 197-227.  On success returns the buffer later handed to the cea708
collaborator (`vec![0x80|0x40|cc_count, 0xFF]` extended with the payload
slice) and the index after the section. -/
def parseCC (data : List Nat) (flags : Flags) (idx : Nat) :
    Except ParserError (Option (List Nat) × Nat) :=
  if flags.cc_data then
    if data.length < idx + 2 then .error (.lengthMismatch (idx + 2) data.length)
    else if data.getD idx 0 ≠ 0x72 then .error .wrongMagic
    else if data.getD (idx + 1) 0 &&& 0xe0 ≠ 0xe0 then .error .invalidFixedBits
    else
      let cc_count := data.getD (idx + 1) 0 &&& 0x1f
      if data.length < idx + 2 + cc_count * 3 then
        .error (.lengthMismatch (idx + 2 + cc_count * 3) data.length)
      else
        .ok (some ((0x80 ||| 0x40 ||| cc_count) :: 0xFF ::
          ((data.drop (idx + 2)).take (cc_count * 3))), idx + 2 + cc_count * 3)
  else .ok (none, idx)

/-- Mirrors the service-info branch of `CDPParser::parse` in
`src/parser.rs` lines 229-262 (this variant length-checks the block before
slicing it). -/
def parseSvcSection (data : List Nat) (flags : Flags) (idx : Nat) :
    Except ParserError (Option ServiceInfo × Nat) :=
  if flags.svc_info then
    if data.length < idx + 2 then .error (.lengthMismatch (idx + 2) data.length)
    else if data.getD idx 0 ≠ 0x73 then .error .wrongMagic
    else
      let svc_count := data.getD (idx + 1) 0 &&& 0x0f
      let svc_size := 2 + 7 * svc_count
      if data.length < idx + svc_size then .error (.lengthMismatch (idx + svc_size) data.length)
      else
        match ServiceInfo.parse ((data.drop idx).take svc_size) with
        | .error e => .error e
        | .ok service_info =>
          if service_info.is_start ≠ flags.svc_info_start then .error .serviceFlagsMismatched
          else if service_info.is_change ≠ flags.svc_info_change then .error .serviceFlagsMismatched
          else if service_info.is_complete ≠ flags.svc_info_complete then
            .error .serviceFlagsMismatched
          else .ok (some service_info, idx + svc_size)
  else .ok (none, idx)

/-- One-step-per-fuel-unit encoding of the future-section loop of
`CDPParser::parse` (`src/parser.rs` lines 272-294).  Each loop iteration
advances `idx` by at least 2 while the in-loop length checks keep
`idx + 2 ≤ data.length`, so any fuel of at least `data.length - idx`
makes the fuel bound unreachable (`futureLoop_fuel` below); the fuel-zero
value coincides with the loop behaviour when `idx` is already past the
end of the buffer. -/
def futureLoopN (data : List Nat) : Nat → Nat → Except ParserError Nat
  | 0, _ => .error .wrongMagic
  | fuel + 1, idx =>
    if data.getD idx 0 = 0x74 then .ok idx
    else if data.getD idx 0 < 0x75 ∨ 0xEF < data.getD idx 0 then .error .wrongMagic
    else
      let len := data.getD (idx + 1) 0
      if data.length < idx + 1 + len then .error (.lengthMismatch (idx + 1 + len) data.length)
      else if data.length < idx + 2 + len + 2 then
        .error (.lengthMismatch (idx + 2 + len + 2) data.length)
      else futureLoopN data fuel (idx + 2 + len)

/-- Mirrors the future-section loop of `CDPParser::parse` in
`src/parser.rs` lines 272-294; returns the index at which the footer id
was found.  `data.length` units of fuel always suffice (see
`futureLoop_fuel`). -/
def futureLoop (data : List Nat) (idx : Nat) : Except ParserError Nat :=
  futureLoopN data data.length idx

/-- Mirrors the footer handling of `CDPParser::parse` in `src/parser.rs`
lines 298-312; on success returns the index of the stored checksum byte. -/
def parseFooter (data : List Nat) (sequence_count : Nat) (idx : Nat) :
    Except ParserError Nat :=
  if data.length < idx + 4 then .error (.lengthMismatch (idx + 4) data.length)
  else if data.getD idx 0 ≠ 0x74 then .error .wrongMagic
  else
    let footer_sequence_count := (data.getD (idx + 1) 0) <<< 8 ||| data.getD (idx + 2) 0
    if sequence_count ≠ footer_sequence_count then .error .sequenceCountMismatch
    else .ok (idx + 3)

/-- The running 8-bit wrapping sum used by both parser and writer
(`checksum.wrapping_add(*d)` over a byte sequence). -/
def wrapSum (l : List Nat) : Nat := l.foldl (fun a b => (a + b) % 256) 0

/-- The stored-checksum value `(!checksum).wrapping_add(1)` computed in
8-bit arithmetic (`src/parser.rs` line 319, `src/writer.rs` line 256). -/
def negByte (s : Nat) : Nat := (255 - s % 256 + 1) % 256

/-- Mirrors the checksum verification of `CDPParser::parse` in
`src/parser.rs` lines 314-326: the wrapping sum runs over every byte but
the last, and is compared against the byte at `idx` (the byte three past
the footer id). -/
def checksumCheck (data : List Nat) (idx : Nat) : Except ParserError Unit :=
  if negByte (wrapSum (data.take (data.length - 1))) ≠ data.getD idx 0 then
    .error .checksumFailed
  else .ok ()

/-- Everything `CDPParser::parse` validates and extracts from one packet,
together with the section start indexes it walked (`ccIdx`/`svcIdx` are
the values of `idx` when the cc-data / service-info branches begin,
`svcEnd` the value after the service-info branch, `footerIdx` where the
footer id was found, `chkIdx` the index of the compared checksum byte). -/
structure ParseOk where
  framerate : Framerate
  flags : Flags
  sequence : Nat
  time_code : Option TimeCode
  ccBuf : Option (List Nat)
  service_info : Option ServiceInfo
  ccIdx : Nat
  svcIdx : Nat
  svcEnd : Nat
  footerIdx : Nat
  chkIdx : Nat
deriving DecidableEq, Repr

/-- Mirrors the pure validation core of `CDPParser::parse` in
`src/parser.rs` lines 115-337 (everything up to and including the
checksum check; the session-state effects and the hand-off to the cea708
collaborator are layered on top in `CDPParser.parseStep`). -/
def CDPParser.parseCore (data : List Nat) : Except ParserError ParseOk :=
  if data.length < 11 then .error (.lengthMismatch 11 data.length)
  else if ¬(data.getD 0 0 = 0x96 ∧ data.getD 1 0 = 0x69) then .error .wrongMagic
  else
    let len := data.getD 2 0
    if data.length ≠ len then .error (.lengthMismatch len data.length)
    else
      match Framerate.from_id ((data.getD 3 0 &&& 0xf0) >>> 4) with
      | none => .error .unknownFramerate
      | some framerate =>
        let flags := Flags.ofByte (data.getD 4 0)
        let sequence_count := (data.getD 5 0) <<< 8 ||| data.getD 6 0
        match parseTC data flags with
        | .error e => .error e
        | .ok (time_code, idx) =>
          match parseCC data flags idx with
          | .error e => .error e
          | .ok (ccBuf, idx2) =>
            match parseSvcSection data flags idx2 with
            | .error e => .error e
            | .ok (service_info, idx3) =>
              if data.length < idx3 + 2 then .error (.lengthMismatch (idx3 + 2) data.length)
              else
                match futureLoop data idx3 with
                | .error e => .error e
                | .ok footerIdx =>
                  match parseFooter data sequence_count footerIdx with
                  | .error e => .error e
                  | .ok chkIdx =>
                    match checksumCheck data chkIdx with
                    | .error e => .error e
                    | .ok _ =>
                      .ok ⟨framerate, flags, sequence_count, time_code, ccBuf,
                           service_info, idx, idx2, idx3, footerIdx, chkIdx⟩

/-- The envelope fields of the `CDPParser` session object
(`src/parser.rs` lines 80-86); the embedded cea708 collaborator state is
external to this repository and is abstracted away. -/
structure CDPParserState where
  time_code : Option TimeCode
  framerate : Option Framerate
  service_info : Option ServiceInfo
  sequence : Nat
deriving DecidableEq, Repr

/-- The initial session state (`CDPParser::default`, `src/parser.rs`
lines 88-100). -/
def CDPParser.initState : CDPParserState := ⟨none, none, none, 0⟩

/-- Mirrors the state effects of `CDPParser::parse` (`src/parser.rs`
lines 115-118 and 328-336): `time_code`, `framerate` and `sequence` are
cleared up front; on success (including a successful hand-off of the
cc-data buffer to the collaborator's `push`, whose behaviour is the
parameter `push` since `cea708_types` is outside this repository) all
four fields are replaced by the parsed values. -/
def CDPParser.parseStep (push : List Nat → Except ParserError Unit)
    (s : CDPParserState) (data : List Nat) : CDPParserState × Except ParserError Unit :=
  let s0 : CDPParserState := { s with time_code := none, framerate := none, sequence := 0 }
  match CDPParser.parseCore data with
  | .error e => (s0, .error e)
  | .ok r =>
    match (match r.ccBuf with | some buf => push buf | none => .ok ()) with
    | .error e => (s0, .error e)
    | .ok _ =>
      (⟨r.time_code, some r.framerate, r.service_info, r.sequence⟩, .ok ())

/-- Mirrors the time-code serialization of `CDPWriter::write` in
`src/writer.rs` lines 213-229. -/
def TimeCode.writeBytes (tc : TimeCode) : List Nat :=
  [0x71,
   0xc0 ||| ((tc.hours / 10) <<< 4) ||| (tc.hours % 10),
   0x80 ||| ((tc.minutes / 10) <<< 4) ||| (tc.minutes % 10),
   (if tc.field then 0x80 else 0x00) ||| ((tc.seconds / 10) <<< 4) ||| (tc.seconds % 10),
   (if tc.drop_frame then 0x80 else 0x0) ||| ((tc.frames / 10) <<< 4) ||| (tc.frames % 10)]

/-- Mirrors the flag derivation of `CDPWriter::write` in `src/writer.rs`
lines 181-196: `Flags::CC_DATA_PRESENT | Flags::CAPTION_SERVICE_ACTIVE |
0x1` plus the conditional presence bits. -/
def CDPWriter.flagsByte (time_code : Option TimeCode) (service_info : Option ServiceInfo) : Nat :=
  let f := 0x40 ||| 0x02 ||| 0x1
  let f := if time_code.isSome then f ||| 0x80 else f
  match service_info with
  | none => f
  | some svc =>
    let f := f ||| 0x20
    let f := if svc.is_start then f ||| 0x10 else f
    let f := if svc.is_change then f ||| 0x08 else f
    if svc.is_complete then f ||| 0x04 else f

/-- Mirrors the flag derivation of the older `CDPWriter::write` in
`src/lib.rs` lines 576-591: `Flags::CC_DATA_PRESENT | 0x1` plus the
conditional presence bits (no caption-service-active bit). -/
def CDPWriter.flagsByteLib (time_code : Option TimeCode) (service_info : Option ServiceInfo) : Nat :=
  let f := 0x40 ||| 0x1
  let f := if time_code.isSome then f ||| 0x80 else f
  match service_info with
  | none => f
  | some svc =>
    let f := f ||| 0x20
    let f := if svc.is_start then f ||| 0x10 else f
    let f := if svc.is_change then f ||| 0x08 else f
    if svc.is_complete then f ||| 0x04 else f

/-- The in-memory state of a `CDPWriter` (`src/writer.rs` lines 95-100).
The embedded `cea708_types::CCDataWriter` is outside this repository;
modelled from the spec, its queued state is abstracted by the cc count and
payload bytes its `write` will produce (see `ccWriterOutput`). -/
structure CDPWriterState where
  time_code : Option TimeCode
  service_info : Option ServiceInfo
  sequence_count : Nat
  cc_count : Nat
  ccPayload : List Nat
deriving DecidableEq, Repr

/-- Modelled from the spec: the external `cea708_types::CCDataWriter::write`
(not part of this repository) produces a self-framed buffer whose first
byte carries the cc triple count in its low five bits, followed by one
framing byte and then the `3 * cc_count` payload bytes.  `CDPWriter::write`
reads only `cc_data[0] & 0x1f` from this framing before overwriting bytes
0 and 1. -/
def ccWriterOutput (cc_count : Nat) (ccPayload : List Nat) : List Nat :=
  (0x80 ||| 0x40 ||| cc_count) :: 0xFF :: ccPayload

/-- The cc-data section emitted by `CDPWriter::write` (`src/writer.rs`
lines 166-172): the collaborator's buffer with byte 1 overwritten by
`0xe0 | (cc_data[0] & 0x1f)` and byte 0 overwritten by the section id
`0x72`. -/
def CDPWriter.ccSection (s : CDPWriterState) : List Nat :=
  let cc0 := ccWriterOutput s.cc_count s.ccPayload
  let cc1 := cc0.set 1 (0xe0 ||| (cc0.getD 0 0 &&& 0x1f))
  cc1.set 0 0x72

/-- The total packet length computed by `CDPWriter::write`
(`src/writer.rs` lines 162-177): 7 header bytes, 5 optional time-code
bytes, the cc-data section, the optional service-info block, 4 footer
bytes. -/
def CDPWriter.writeLen (s : CDPWriterState) : Nat :=
  7 + (if s.time_code.isSome then 5 else 0) + (CDPWriter.ccSection s).length +
    (match s.service_info with
     | some service => service.byte_len
     | none => 0) + 4

/-- All bytes `CDPWriter::write` emits before the checksum byte
(`src/writer.rs` lines 199-254), in emission order: header, optional
time code, cc-data section, optional service info, footer id and
sequence count. -/
def CDPWriter.writeBody (s : CDPWriterState) (framerate : Framerate) : List Nat :=
  [0x96, 0x69, CDPWriter.writeLen s &&& 0xff, framerate.id <<< 4 ||| 0x0f,
    CDPWriter.flagsByte s.time_code s.service_info,
    (s.sequence_count &&& 0xff00) >>> 8, s.sequence_count &&& 0xff] ++
  (match s.time_code with
   | some tc => tc.writeBytes
   | none => []) ++
  CDPWriter.ccSection s ++
  (match s.service_info with
   | some service => service.writeBytes
   | none => []) ++
  [0x74, (s.sequence_count &&& 0xff00) >>> 8, s.sequence_count &&& 0xff]

/-- Mirrors `CDPWriter::write` in `src/writer.rs` lines 157-261 (the
framerate is supplied per call in this variant).  The `assert!(len <=
u8::MAX)` is modelled by returning `none`; the serialized packet is the
emitted byte list followed by the trailing checksum byte
`(!checksum).wrapping_add(1)` where `checksum` is the running 8-bit
wrapping sum of every emitted byte. -/
def CDPWriter.write (s : CDPWriterState) (framerate : Framerate) : Option (List Nat) :=
  if CDPWriter.writeLen s > 255 then none
  else
    some (CDPWriter.writeBody s framerate ++
      [negByte (wrapSum (CDPWriter.writeBody s framerate))])

/-- Mirrors the service-info branch of the older `CDPParser::parse` in
`src/lib.rs` lines 363-390.  That variant computes `svc_size` but slices
`data[idx..idx + svc_size]` without first checking that the buffer is
long enough; the resulting out-of-range slice abort is modelled as
`none`. -/
def parseSvcSectionLib (data : List Nat) (flags : Flags) (idx : Nat) :
    Option (Except ParserError (Option ServiceInfo × Nat)) :=
  if flags.svc_info then
    if data.length < idx + 2 then some (.error (.lengthMismatch (idx + 2) data.length))
    else if data.getD idx 0 ≠ 0x73 then some (.error .wrongMagic)
    else
      let svc_count := data.getD (idx + 1) 0 &&& 0x0f
      let svc_size := 2 + 7 * svc_count
      if data.length < idx + svc_size then none
      else
        match ServiceInfo.parse ((data.drop idx).take svc_size) with
        | .error e => some (.error e)
        | .ok service_info =>
          if service_info.is_start ≠ flags.svc_info_start then
            some (.error .serviceFlagsMismatched)
          else if service_info.is_change ≠ flags.svc_info_change then
            some (.error .serviceFlagsMismatched)
          else if service_info.is_complete ≠ flags.svc_info_complete then
            some (.error .serviceFlagsMismatched)
          else some (.ok (some service_info, idx + svc_size))
  else some (.ok (none, idx))

/-- Mirrors the control flow of the older `CDPParser::parse` in
`src/lib.rs` lines 249-465, which is identical to `src/parser.rs` except
in the service-info branch (see `parseSvcSectionLib`); only the outcome
matters here, so parsed values are discarded.  `none` marks the
out-of-range slice abort of that variant. -/
def CDPParser.parseLib (data : List Nat) : Option (Except ParserError Unit) :=
  if data.length < 11 then some (.error (.lengthMismatch 11 data.length))
  else if ¬(data.getD 0 0 = 0x96 ∧ data.getD 1 0 = 0x69) then some (.error .wrongMagic)
  else
    let len := data.getD 2 0
    if data.length ≠ len then some (.error (.lengthMismatch len data.length))
    else
      match Framerate.from_id ((data.getD 3 0 &&& 0xf0) >>> 4) with
      | none => some (.error .unknownFramerate)
      | some _ =>
        let flags := Flags.ofByte (data.getD 4 0)
        let sequence_count := (data.getD 5 0) <<< 8 ||| data.getD 6 0
        match parseTC data flags with
        | .error e => some (.error e)
        | .ok (_, idx) =>
          match parseCC data flags idx with
          | .error e => some (.error e)
          | .ok (_, idx2) =>
            match parseSvcSectionLib data flags idx2 with
            | none => none
            | some (.error e) => some (.error e)
            | some (.ok (_, idx3)) =>
              if data.length < idx3 + 2 then
                some (.error (.lengthMismatch (idx3 + 2) data.length))
              else
                match futureLoop data idx3 with
                | .error e => some (.error e)
                | .ok footerIdx =>
                  match parseFooter data sequence_count footerIdx with
                  | .error e => some (.error e)
                  | .ok chkIdx =>
                    match checksumCheck data chkIdx with
                    | .error e => some (.error e)
                    | .ok _ => some (.ok ())

/-- Folding the session `parse` calls over a list of input buffers
(mirrors repeated `parser.parse(..)` calls on one `CDPParser`). -/
def CDPParser.runParser (push : List Nat → Except ParserError Unit)
    (s : CDPParserState) (inputs : List (List Nat)) : CDPParserState :=
  inputs.foldl (fun st d => (CDPParser.parseStep push st d).1) s

/-- Specification-side view of one `parse` call: `some si` when the call
succeeds (committing `si` as the new `service_info`), `none` when it
fails. -/
def parseCommit (push : List Nat → Except ParserError Unit) (data : List Nat) :
    Option (Option ServiceInfo) :=
  match CDPParser.parseCore data with
  | .error _ => none
  | .ok r =>
    match (match r.ccBuf with | some buf => push buf | none => .ok ()) with
    | .error _ => none
    | .ok _ => some r.service_info

/-- The public `ServiceInfo` mutators named by the specification. -/
inductive SvcAction where
  | setStart (v : Bool)
  | setChange (v : Bool)
  | setComplete (v : Bool)
  | addService (e : ServiceEntry)
  | clearServices
deriving DecidableEq

/-- Applying one mutator to a `ServiceInfo` (a failing `add_service`
leaves the value unchanged, as the source returns an error without
pushing). -/
def SvcAction.apply (si : ServiceInfo) : SvcAction → ServiceInfo
  | .setStart v => si.set_start v
  | .setChange v => si.set_change v
  | .setComplete v => si.set_complete v
  | .addService e =>
    match si.add_service e with
    | .ok si2 => si2
    | .error _ => si
  | .clearServices => si.clear_services

/-- Applying a sequence of mutators in order. -/
def applyActions (si : ServiceInfo) (l : List SvcAction) : ServiceInfo :=
  l.foldl SvcAction.apply si

/-- The documented `ServiceInfo` invariant: `change = true` implies
`start = true`. -/
@[reducible]
def svcInvariant (si : ServiceInfo) : Prop := si.change = true → si.start = true

/-- Flipping bit `b` of the byte at position `p`. -/
def flipBit (data : List Nat) (p b : Nat) : List Nat :=
  data.set p ((data.getD p 0) ^^^ (1 <<< b))

/-- The fixed-bit positions inside one 7-byte service-descriptor entry
starting at absolute position `base`: the entry-header reserved bit 7 and
(for "large" numbering) bit 5, the inner descriptor byte-3 fixed bit 6
and (for CEA-608 field entries) bits 1-5, the byte-4 low six bits and the
all-ones byte 5. -/
def svcEntryFixedBit (data : List Nat) (base p b : Nat) : Prop :=
  (p = base ∧ b = 7) ∨
  (p = base ∧ b = 5 ∧ data.getD base 0 &&& 0x40 ≠ 0) ∨
  (p = base + 4 ∧ b = 6) ∨
  (p = base + 4 ∧ 1 ≤ b ∧ b ≤ 5 ∧ data.getD (base + 4) 0 &&& 0x80 = 0) ∨
  (p = base + 5 ∧ b ≤ 5) ∨
  (p = base + 6 ∧ b ≤ 7)

/-- The reserved/fixed bit positions that `CDPParser::parse` actually
validates in an accepted packet `data` with parse result `r`: the
time-code fixed bits (bytes 8, 9 and 11), the cc-data count byte's top
three bits, and the service-info fixed bits (header byte bit 7 plus the
per-entry positions of `svcEntryFixedBit`). -/
def fixedBitPos (data : List Nat) (r : ParseOk) (p b : Nat) : Prop :=
  (r.flags.time_code = true ∧
    ((p = 8 ∧ (b = 6 ∨ b = 7)) ∨ (p = 9 ∧ b = 7) ∨ (p = 11 ∧ b = 6))) ∨
  (r.flags.cc_data = true ∧ p = r.ccIdx + 1 ∧ (b = 5 ∨ b = 6 ∨ b = 7)) ∨
  (r.flags.svc_info = true ∧
    ((p = r.svcIdx + 1 ∧ b = 7) ∨
     (∃ e, e < data.getD (r.svcIdx + 1) 0 &&& 0x0f ∧
       svcEntryFixedBit data (r.svcIdx + 2 + 7 * e) p b)))

/-- Inserting a well-formed unknown section (id `0x75`, declared length 2,
payload `x y`) immediately before the footer (at position `fIdx`), with
the advertised total-length byte bumped by 4 and the trailing checksum
byte recomputed. -/
def insertFuture (data : List Nat) (fIdx x y : Nat) : List Nat :=
  let bumped := data.set 2 (data.getD 2 0 + 4)
  let shifted := (bumped.take fIdx) ++ [0x75, 0x02, x, y] ++ (bumped.drop fIdx)
  (shifted.take (shifted.length - 1)) ++
    [negByte (wrapSum (shifted.take (shifted.length - 1)))]

/-- Range constraints the repository documents for a `TimeCode`. -/
def TimeCode.valid (tc : TimeCode) : Prop :=
  tc.hours ≤ 23 ∧ tc.minutes ≤ 59 ∧ tc.seconds ≤ 59 ∧ tc.frames ≤ 29

/-- Validity of one writer-side service entry: byte-sized language code,
and a service that is either CEA-608 field 1 or a CEA-708 service in the
documented range 1-31.  (Field 2 entries are excluded: writing and then
parsing one fails, see the C1 counterexample.) -/
def ServiceEntry.roundtrips (e : ServiceEntry) : Prop :=
  e.language.1 < 256 ∧ e.language.2.1 < 256 ∧ e.language.2.2 < 256 ∧
  (match e.service with
   | .Field field1 => field1 = true
   | .Service d => 1 ≤ d.service ∧ d.service ≤ 31)

/-- Validity of a writer-side `ServiceInfo`: at most 15 entries, each
satisfying `ServiceEntry.roundtrips`. -/
def ServiceInfo.roundtrips (si : ServiceInfo) : Prop :=
  si.services.length ≤ 15 ∧ ∀ e ∈ si.services, e.roundtrips

/-- The 25 fps table entry (id `0x3`). -/
def fr25 : Framerate := ⟨0x3, 25, 1⟩

/-- Writer state whose service information holds a single CEA-608
field-2 entry (used to refute the unrestricted round-trip claim). -/
def c1CexState : CDPWriterState :=
  ⟨none, some ⟨false, false, false, [⟨(0x65, 0x6e, 0x67), .Field false⟩]⟩, 0, 0, []⟩

/-- A 13-byte buffer whose header advertises length 13 and sets the
svc_info flag, with a service count of 1 (so the block needs 9 bytes from
position 7, i.e. 16 bytes in total). -/
def c2Input : List Nat :=
  [0x96, 0x69, 0x0d, 0x3f, 0x20, 0x00, 0x00, 0x73, 0x81, 0x00, 0x00, 0x00, 0x00]

/-- An empty writer state. -/
def emptyWriterState : CDPWriterState := ⟨none, none, 0, 0, []⟩

/-- The packet produced by writing `emptyWriterState` at 25 fps. -/
def emptyWriterPacket : List Nat :=
  [0x96, 0x69, 0x0d, 0x3f, 0x43, 0x00, 0x00, 0x72, 0xe0, 0x74, 0x00, 0x00, 0xac]

/-- A minimal valid packet: no sections, sequence 0, correct checksum. -/
def minimalPacket : List Nat :=
  [0x96, 0x69, 0x0b, 0x3f, 0x01, 0x00, 0x00, 0x74, 0x00, 0x00, 0x42]

/-- An accepted 12-byte packet whose compared checksum byte (position 10,
three past the footer id at 7) is not the final byte: position 11 holds
an arbitrary trailing byte `0xAA` that the parser never reads. -/
def c5CexPacket : List Nat :=
  [0x96, 0x69, 0x0C, 0x3F, 0x02, 0x00, 0x00, 0x74, 0x00, 0x00, 0x20, 0xAA]

/-- The parse result of `c5CexPacket`. -/
def c5CexResult : ParseOk :=
  ⟨fr25, Flags.ofByte 0x02, 0, none, none, none, 7, 7, 7, 7, 10⟩

/-- `c5CexPacket` with a `0x75`-section inserted before the footer, the
length byte bumped to 16 and the final byte recomputed as the
two's-complement negation of the sum of all preceding bytes (the
adjustment the round-trip claim prescribes). -/
def c8CexPacket : List Nat := insertFuture c5CexPacket 7 0x00 0x00

/-- A packet whose service-info block encodes start+complete but whose
header flags byte has the start/complete bits cleared. -/
def c7FlagsPacket : List Nat :=
  [0x96, 0x69, 0x14, 0x3f, 0x21, 0x12, 0x34,
   0x73, 0xd1, 0x80, 0x65, 0x6e, 0x67, 0x7e, 0x3f, 0xff,
   0x74, 0x12, 0x34, 0x00]

/-- A packet whose footer sequence count (1) differs from the header
sequence count (0). -/
def c7SeqPacket : List Nat :=
  [0x96, 0x69, 0x0b, 0x3f, 0x01, 0x00, 0x00, 0x74, 0x00, 0x01, 0x00]

/-- The bytes `CDPWriter::write` emits for the optional time code
(nothing when absent). -/
def tcBytesOpt : Option TimeCode → List Nat
  | some tc => tc.writeBytes
  | none => []

/-- The bytes `CDPWriter::write` emits for the optional service-info
block (nothing when absent). -/
def svcBytesOpt : Option ServiceInfo → List Nat
  | some si => si.writeBytes
  | none => []

/-- The svc-start flag the writer advertises for an optional
service-info block. -/
def startOpt : Option ServiceInfo → Bool
  | some si => si.start
  | none => false

/-- The svc-change flag the writer advertises for an optional
service-info block. -/
def changeOpt : Option ServiceInfo → Bool
  | some si => si.change
  | none => false

/-- The svc-complete flag the writer advertises for an optional
service-info block. -/
def completeOpt : Option ServiceInfo → Bool
  | some si => si.complete
  | none => false

/-- A writer state exercising every optional section: a time code, a
two-entry service-info block (one CEA-708 service, one CEA-608 field-1
entry), a nonzero sequence count and two queued cc triples. -/
def c1WitnessState : CDPWriterState :=
  ⟨some ⟨12, 34, 56, 21, false, true⟩,
   some ⟨true, false, true,
     [⟨(0x65, 0x6e, 0x67), .Service ⟨3, true, false⟩⟩, ⟨(0x66, 0x72, 0x61), .Field true⟩]⟩,
   0x1234, 2, [1, 2, 3, 4, 5, 6]⟩

/-- The packet `CDPWriter::write` produces from `c1WitnessState` at 25
fps. -/
def c1WitnessPacket : List Nat :=
  [150, 105, 40, 63, 247, 18, 52, 113, 210, 180, 86, 161, 114, 226, 1, 2, 3, 4, 5, 6,
   115, 210, 131, 101, 110, 103, 195, 191, 255, 128, 102, 114, 97, 126, 63, 255, 116,
   18, 52, 84]

/-- The parse result of `minimalPacket`. -/
def c4MinResult : ParseOk :=
  ⟨fr25, Flags.ofByte 0x01, 0, none, none, none, 7, 7, 7, 7, 10⟩

/-- `minimalPacket` with the flags byte's reserved bit 0 cleared and the
checksum byte corrected accordingly. -/
def c4AdjPacket : List Nat :=
  [0x96, 0x69, 0x0b, 0x3f, 0x00, 0x00, 0x00, 0x74, 0x00, 0x00, 0x43]

/-- The parse result of `c4AdjPacket`: silently accepted although the
documented reserved flags bit is cleared. -/
def c4AdjResult : ParseOk :=
  ⟨fr25, Flags.ofByte 0x00, 0, none, none, none, 7, 7, 7, 7, 10⟩

/-- An accepted 16-byte packet carrying only a zero time code. -/
def c4WitnessPacket : List Nat :=
  [0x96, 0x69, 0x10, 0x3f, 0x80, 0x00, 0x00, 0x71, 0xc0, 0x80, 0x00, 0x00,
   0x74, 0x00, 0x00, 0x0d]

/-- The parse result of `c4WitnessPacket`. -/
def c4WitnessResult : ParseOk :=
  ⟨fr25, Flags.ofByte 0x80, 0, some ⟨0, 0, 0, 0, false, false⟩, none, none,
   12, 12, 12, 12, 15⟩

/-! ## Helper lemmas -/

theorem getD_drop (l : List Nat) (n i : Nat) : (l.drop n).getD i 0 = l.getD (n + i) 0 := by
  simp [List.getD_eq_getElem?_getD, List.getElem?_drop]

theorem getD_append_left (l m : List Nat) (i : Nat) (h : i < l.length) :
    (l ++ m).getD i 0 = l.getD i 0 := by
  simp [List.getD_eq_getElem?_getD, List.getElem?_append_left h]

theorem getD_append_right (l m : List Nat) (i : Nat) (h : l.length ≤ i) :
    (l ++ m).getD i 0 = m.getD (i - l.length) 0 := by
  simp [List.getD_eq_getElem?_getD, List.getElem?_append_right h]

theorem getD_set_ne (l : List Nat) (p v i : Nat) (h : i ≠ p) :
    (l.set p v).getD i 0 = l.getD i 0 := by
  simp [List.getD_eq_getElem?_getD, List.getElem?_set_ne (by omega : p ≠ i)]

theorem getD_set_self (l : List Nat) (p v : Nat) (h : p < l.length) :
    (l.set p v).getD p 0 = v := by
  simp [List.getD_eq_getElem?_getD, List.getElem?_set_self, h]

theorem take_drop_agree (l l' : List Nat) (a n : Nat)
    (h : ∀ j, a ≤ j → j < a + n → l[j]? = l'[j]?) :
    (l.drop a).take n = (l'.drop a).take n := by
  apply List.ext_getElem?
  intro i
  rcases lt_or_ge i n with hi | hi
  · rw [List.getElem?_take_of_lt hi, List.getElem?_take_of_lt hi,
      List.getElem?_drop, List.getElem?_drop]
    exact h (a + i) (by omega) (by omega)
  · rw [List.getElem?_eq_none_iff.mpr (by simp; omega),
      List.getElem?_eq_none_iff.mpr (by simp; omega)]

theorem drop_take_set_inside (l : List Nat) (p v a n : Nat) (h1 : a ≤ p) (h2 : p < a + n) :
    ((l.set p v).drop a).take n = ((l.drop a).take n).set (p - a) v := by
  rcases lt_or_ge p l.length with hp | hp
  · apply List.ext_getElem?
    intro i
    rcases lt_or_ge i n with hi | hi
    · rw [List.getElem?_take_of_lt hi, List.getElem?_drop]
      rcases eq_or_ne (a + i) p with he | he
      · have hia : i = p - a := by omega
        rw [he, List.getElem?_set_self hp, hia, List.getElem?_set_self]
        rw [List.length_take, List.length_drop]
        omega
      · rw [List.getElem?_set_ne (by omega), List.getElem?_set_ne (by omega),
          List.getElem?_take_of_lt hi, List.getElem?_drop]
    · rw [List.getElem?_eq_none_iff.mpr (by simp; omega),
        List.getElem?_eq_none_iff.mpr (by simp; omega)]
  · rw [List.set_eq_of_length_le hp, List.set_eq_of_length_le]
    rw [List.length_take, List.length_drop]
    omega

theorem drop_take_set_outside (l : List Nat) (p v a n : Nat) (h : p < a ∨ a + n ≤ p) :
    ((l.set p v).drop a).take n = (l.drop a).take n := by
  apply take_drop_agree
  intro j hj1 hj2
  rw [List.getElem?_set_ne (by omega)]

theorem wrapSum_foldl (l : List Nat) (a : Nat) (ha : a < 256) :
    l.foldl (fun x b => (x + b) % 256) a = (a + l.sum) % 256 := by
  induction l generalizing a with
  | nil => simp [Nat.mod_eq_of_lt ha]
  | cons b t ih =>
    simp only [List.foldl_cons, List.sum_cons]
    rw [ih _ (Nat.mod_lt _ (by omega))]
    omega

theorem wrapSum_eq (l : List Nat) : wrapSum l = l.sum % 256 := by
  unfold wrapSum
  rw [wrapSum_foldl l 0 (by omega)]
  omega

theorem negByte_eq (s : Nat) : negByte s = (256 - s % 256) % 256 := by
  unfold negByte
  omega

theorem sum_body_chk (body : List Nat) :
    (body ++ [negByte (wrapSum body)]).sum % 256 = 0 := by
  rw [List.sum_append, List.sum_cons, List.sum_nil, wrapSum_eq, negByte_eq]
  omega

theorem flip_break_mask (x f m : Nat) (hx : x &&& m = m) (hf : f &&& m = f) (hf0 : f ≠ 0) :
    (x ^^^ f) &&& m ≠ m := by
  rw [Nat.and_xor_distrib_right, hx, hf]
  intro h
  apply hf0
  have := congrArg (fun z => z ^^^ m) h
  have h2 := this
  simp only [Nat.xor_assoc, Nat.xor_comm m f, Nat.xor_cancel_left] at h2
  simp at h2
  omega

theorem flip_break_zero (x f m : Nat) (hx : x &&& m = 0) (hf : f &&& m = f) (hf0 : f ≠ 0) :
    (x ^^^ f) &&& m ≠ 0 := by
  rw [Nat.and_xor_distrib_right, hx, hf]
  simpa using hf0

theorem xor_ne_self (x f : Nat) (hf0 : f ≠ 0) : x ^^^ f ≠ x := by
  intro h
  apply hf0
  have h2 := congrArg (fun z => x ^^^ z) h.symm
  simp only [← Nat.xor_assoc, Nat.xor_self, Nat.zero_xor] at h2
  omega

theorem seq_split (s : Nat) (h : s < 65536) :
    ((s &&& 0xff00) >>> 8) <<< 8 ||| (s &&& 0xff) = s := by
  apply Nat.eq_of_testBit_eq
  intro i
  simp only [Nat.testBit_lor, Nat.testBit_shiftLeft, Nat.testBit_shiftRight, Nat.testBit_land]
  have h00 : (0xff00 : Nat) = (2 ^ 8 - 1) <<< 8 := by decide
  have hff : (0xff : Nat) = 2 ^ 8 - 1 := by decide
  rw [h00, hff]
  simp only [Nat.testBit_shiftLeft, Nat.testBit_two_pow_sub_one]
  rcases lt_or_ge i 8 with hi | hi
  · simp [Nat.not_le.mpr hi, hi]
  · rcases lt_or_ge i 16 with hi2 | hi2
    · have e1 : decide (i - 8 < 8) = true := by simp; omega
      have e2 : decide (i < 8) = false := by simp; omega
      have e3 : decide (8 ≤ i) = true := by simp [hi]
      simp [e1, e2, e3]
      congr 1
      omega
    · have hs : s.testBit i = false := by
        apply Nat.testBit_lt_two_pow
        calc s < 65536 := h
          _ = 2 ^ 16 := by norm_num
          _ ≤ 2 ^ i := Nat.pow_le_pow_right (by norm_num) hi2
      have e2 : decide (i < 8) = false := by simp; omega
      have e3 : s.testBit (8 + (i - 8)) = false := by
        have : 8 + (i - 8) = i := by omega
        rw [this, hs]
      simp [hs, e2, e3]

/-! ## Stage inversion lemmas -/

theorem parseTC_inv (data : List Nat) (flags : Flags) (tc? : Option TimeCode) (i : Nat)
    (h : parseTC data flags = .ok (tc?, i)) :
    (flags.time_code = false ∧ tc? = none ∧ i = 7) ∨
    (flags.time_code = true ∧ i = 12 ∧ 12 ≤ data.length ∧
      data.getD 7 0 = 0x71 ∧ data.getD 8 0 &&& 0xc0 = 0xc0 ∧
      data.getD 9 0 &&& 0x80 = 0x80 ∧ data.getD 11 0 &&& 0x40 = 0) := by
  unfold parseTC at h
  split at h
  · rename_i hflag
    split at h
    · cases h
    · split at h
      · cases h
      · split at h
        · cases h
        · split at h
          · cases h
          · split at h
            · cases h
            · rename_i h1 h2 h3 h4 h5
              cases h
              right
              refine ⟨hflag, rfl, by omega, by omega, by omega, by omega, by omega⟩
  · rename_i hflag
    cases h
    exact .inl ⟨by simpa using hflag, rfl, rfl⟩

theorem parseCC_inv (data : List Nat) (flags : Flags) (idx : Nat)
    (buf : Option (List Nat)) (i2 : Nat)
    (h : parseCC data flags idx = .ok (buf, i2)) :
    (flags.cc_data = false ∧ buf = none ∧ i2 = idx) ∨
    (flags.cc_data = true ∧ i2 = idx + 2 + (data.getD (idx + 1) 0 &&& 0x1f) * 3 ∧
      i2 ≤ data.length ∧ data.getD idx 0 = 0x72 ∧
      data.getD (idx + 1) 0 &&& 0xe0 = 0xe0 ∧
      buf = some ((0x80 ||| 0x40 ||| (data.getD (idx + 1) 0 &&& 0x1f)) :: 0xFF ::
        ((data.drop (idx + 2)).take ((data.getD (idx + 1) 0 &&& 0x1f) * 3)))) := by
  unfold parseCC at h
  dsimp only at h
  split at h
  · rename_i hflag
    split at h
    · cases h
    · split at h
      · cases h
      · split at h
        · cases h
        · split at h
          · cases h
          · rename_i h1 h2 h3 h4
            cases h
            right
            exact ⟨hflag, rfl, by omega, by omega, by omega, rfl⟩
  · rename_i hflag
    cases h
    exact .inl ⟨by simpa using hflag, rfl, rfl⟩

theorem parseSvc_inv (data : List Nat) (flags : Flags) (idx : Nat)
    (si? : Option ServiceInfo) (i3 : Nat)
    (h : parseSvcSection data flags idx = .ok (si?, i3)) :
    (flags.svc_info = false ∧ si? = none ∧ i3 = idx) ∨
    (flags.svc_info = true ∧
      i3 = idx + (2 + 7 * (data.getD (idx + 1) 0 &&& 0x0f)) ∧ i3 ≤ data.length ∧
      data.getD idx 0 = 0x73 ∧
      ∃ si, ServiceInfo.parse
          ((data.drop idx).take (2 + 7 * (data.getD (idx + 1) 0 &&& 0x0f))) = .ok si ∧
        si? = some si ∧ si.is_start = flags.svc_info_start ∧
        si.is_change = flags.svc_info_change ∧ si.is_complete = flags.svc_info_complete) := by
  unfold parseSvcSection at h
  dsimp only at h
  split at h
  · rename_i hflag
    split at h
    · cases h
    · split at h
      · cases h
      · split at h
        · cases h
        · split at h
          · cases h
          · rename_i h1 h2 h3 si hsi
            split at h
            · cases h
            · split at h
              · cases h
              · split at h
                · cases h
                · rename_i hs hc hp
                  cases h
                  right
                  refine ⟨hflag, rfl, by omega, by omega, si, hsi, rfl, ?_, ?_, ?_⟩
                  · simpa using hs
                  · simpa using hc
                  · simpa using hp
  · rename_i hflag
    cases h
    exact .inl ⟨by simpa using hflag, rfl, rfl⟩

theorem futureLoopN_fuel (data : List Nat) : ∀ f1 f2 idx, data.length - idx ≤ f1 →
    data.length - idx ≤ f2 → futureLoopN data f1 idx = futureLoopN data f2 idx := by
  intro f1
  induction f1 with
  | zero =>
    intro f2 idx h1 h2
    have hd : data.getD idx 0 = 0 := List.getD_eq_default _ _ (by omega)
    cases f2 with
    | zero => rfl
    | succ b =>
      rw [futureLoopN, futureLoopN, if_neg (by omega), if_pos (by omega)]
  | succ a ih =>
    intro f2 idx h1 h2
    cases f2 with
    | zero =>
      have hd : data.getD idx 0 = 0 := List.getD_eq_default _ _ (by omega)
      rw [futureLoopN, futureLoopN, if_neg (by omega), if_pos (by omega)]
    | succ b =>
      rw [futureLoopN, futureLoopN]
      rcases eq_or_ne (data.getD idx 0) 0x74 with hfoot | hfoot
      · rw [if_pos hfoot, if_pos hfoot]
      · rw [if_neg hfoot, if_neg hfoot]
        by_cases hrange : data.getD idx 0 < 0x75 ∨ 0xEF < data.getD idx 0
        · rw [if_pos hrange, if_pos hrange]
        · rw [if_neg hrange, if_neg hrange]
          dsimp only
          by_cases hl1 : data.length < idx + 1 + data.getD (idx + 1) 0
          · rw [if_pos hl1, if_pos hl1]
          · rw [if_neg hl1, if_neg hl1]
            by_cases hl2 : data.length < idx + 2 + data.getD (idx + 1) 0 + 2
            · rw [if_pos hl2, if_pos hl2]
            · rw [if_neg hl2, if_neg hl2]
              exact ih b (idx + 2 + data.getD (idx + 1) 0) (by omega) (by omega)

theorem futureLoopN_inv (data : List Nat) : ∀ fuel i f,
    futureLoopN data fuel i = .ok f → i ≤ f ∧ data.getD f 0 = 0x74 := by
  intro fuel
  induction fuel with
  | zero =>
    intro i f h
    rw [futureLoopN] at h
    cases h
  | succ a ih =>
    intro i f h
    rw [futureLoopN] at h
    split at h
    · rename_i hfoot
      cases h
      exact ⟨le_refl _, hfoot⟩
    · split at h
      · cases h
      · dsimp only at h
        split at h
        · cases h
        · split at h
          · cases h
          · have step := ih (i + 2 + data.getD (i + 1) 0) f h
            exact ⟨by omega, step.2⟩

theorem futureLoop_inv (data : List Nat) (i f : Nat) (h : futureLoop data i = .ok f) :
    i ≤ f ∧ data.getD f 0 = 0x74 := by
  unfold futureLoop at h
  exact futureLoopN_inv data data.length i f h

theorem parseFooter_inv (data : List Nat) (seq idx c : Nat)
    (h : parseFooter data seq idx = .ok c) :
    c = idx + 3 ∧ idx + 4 ≤ data.length ∧ data.getD idx 0 = 0x74 ∧
      seq = (data.getD (idx + 1) 0) <<< 8 ||| data.getD (idx + 2) 0 := by
  unfold parseFooter at h
  dsimp only at h
  split at h
  · cases h
  · split at h
    · cases h
    · split at h
      · cases h
      · rename_i h1 h2 h3
        cases h
        exact ⟨rfl, by omega, by omega, by omega⟩

theorem checksumCheck_inv (data : List Nat) (idx : Nat)
    (h : checksumCheck data idx = .ok ()) :
    negByte (wrapSum (data.take (data.length - 1))) = data.getD idx 0 := by
  unfold checksumCheck at h
  split at h
  · cases h
  · omega

theorem parseCore_ok_inv (data : List Nat) (r : ParseOk)
    (h : CDPParser.parseCore data = .ok r) :
    11 ≤ data.length ∧ data.getD 0 0 = 0x96 ∧ data.getD 1 0 = 0x69 ∧
    data.length = data.getD 2 0 ∧
    Framerate.from_id ((data.getD 3 0 &&& 0xf0) >>> 4) = some r.framerate ∧
    r.flags = Flags.ofByte (data.getD 4 0) ∧
    r.sequence = (data.getD 5 0) <<< 8 ||| data.getD 6 0 ∧
    parseTC data r.flags = .ok (r.time_code, r.ccIdx) ∧
    parseCC data r.flags r.ccIdx = .ok (r.ccBuf, r.svcIdx) ∧
    parseSvcSection data r.flags r.svcIdx = .ok (r.service_info, r.svcEnd) ∧
    r.svcEnd + 2 ≤ data.length ∧
    futureLoop data r.svcEnd = .ok r.footerIdx ∧
    parseFooter data r.sequence r.footerIdx = .ok r.chkIdx ∧
    checksumCheck data r.chkIdx = .ok () := by
  unfold CDPParser.parseCore at h
  dsimp only at h
  split at h
  · cases h
  · split at h
    · cases h
    · split at h
      · cases h
      · split at h
        · cases h
        · split at h
          · cases h
          · split at h
            · cases h
            · split at h
              · cases h
              · split at h
                · cases h
                · split at h
                  · cases h
                  · split at h
                    · cases h
                    · split at h
                      · cases h
                      · cases h
                        dsimp only
                        have hm := not_not.mp
                          (by assumption : ¬¬(data.getD 0 0 = 0x96 ∧ data.getD 1 0 = 0x69))
                        refine ⟨by omega, hm.1, hm.2, by omega, by assumption, rfl, rfl,
                          by assumption, by assumption, by assumption, by omega,
                          by assumption, by assumption, by assumption⟩


theorem getLast?_cons_getD (a d : Option ServiceInfo) (l : List (Option ServiceInfo)) :
    ((a :: l).getLast?).getD d = (l.getLast?).getD a := by
  cases l with
  | nil => rfl
  | cons b t =>
    rw [List.getLast?_cons_cons]
    cases hl : (b :: t).getLast? with
    | none => simp at hl
    | some x => rfl

/-! ## Claim theorems -/

/-- C9: for every buffer of length at least 11 beginning with the magic
bytes `0x96 0x69` whose third byte differs from the buffer's actual
length, `CDPParser::parse` fails with `LengthMismatch` carrying the
declared length as `expected` and the buffer length as `actual`. -/
theorem C9_declared_length_mismatch (data : List Nat)
    (hlen : 11 ≤ data.length) (h0 : data.getD 0 0 = 0x96) (h1 : data.getD 1 0 = 0x69)
    (hne : data.getD 2 0 ≠ data.length) :
    CDPParser.parseCore data = .error (.lengthMismatch (data.getD 2 0) data.length) := by
  unfold CDPParser.parseCore
  rw [if_neg (by omega), if_neg (not_not_intro ⟨h0, h1⟩)]
  dsimp only
  rw [if_pos (by omega)]

theorem C9_witness :
    CDPParser.parseCore [0x96, 0x69, 0x0c, 0, 0, 0, 0, 0, 0, 0, 0] =
      .error (.lengthMismatch 12 11) :=
  C9_declared_length_mismatch [0x96, 0x69, 0x0c, 0, 0, 0, 0, 0, 0, 0, 0]
    (by decide) (by decide) (by decide) (by decide)

/-- C2: the `src/lib.rs` variant of `CDPParser::parse` slices the
service-information block without checking the buffer length first; on a
13-byte buffer whose service-info block needs 16 bytes the Rust slice
`data[7..16]` is out of range and the call aborts (modelled as `none`),
whereas the `src/parser.rs` variant returns
`LengthMismatch{expected: 16, actual: 13}` as the claim states. -/
theorem C2_lib_svc_out_of_range :
    CDPParser.parseLib c2Input = none ∧
    CDPParser.parseCore c2Input = .error (.lengthMismatch 16 13) :=
  ⟨by decide, by decide⟩

/-- C3 counterexample: the packet written from an empty writer state has
flags byte `0x43`, i.e. the caption-service-active bit (bit 1) is set in
addition to the cc-data and reserved bits, contradicting the claim that
the byte would be `0x41` (cc-data bit, reserved bit, and "no other
bit"). -/
theorem C3_counterexample :
    (CDPWriter.write emptyWriterState fr25).map (fun out => out.getD 4 0) = some 0x43 ∧
    Nat.testBit 0x43 1 = true ∧ (0x43 : Nat) ≠ 0x41 :=
  ⟨by decide, by decide, by decide⟩

/-- C3 amended: byte 4 of every packet produced by `CDPWriter::write` is
the derived flags byte; in the `src/writer.rs` variant that byte always
has the cc-data (0x40), caption-service-active (0x02) and reserved (0x01)
bits set, the time-code / svc-info / start / change / complete bits set
exactly when the corresponding state is present or true, and no other
bit; the older `src/lib.rs` variant is identical except that the
caption-service-active bit is never set. -/
theorem C3_flags_byte_amended :
    (∀ s fr out, CDPWriter.write s fr = some out →
      out.getD 4 0 = CDPWriter.flagsByte s.time_code s.service_info) ∧
    (∀ tc? svc?, CDPWriter.flagsByte tc? svc? =
      0x43 + (if tc?.isSome then 0x80 else 0) +
        (match svc? with
         | none => 0
         | some svc => 0x20 + (if svc.start then 0x10 else 0) +
             (if svc.change then 0x08 else 0) + (if svc.complete then 0x04 else 0))) ∧
    (∀ tc? svc?, CDPWriter.flagsByteLib tc? svc? =
      0x41 + (if tc?.isSome then 0x80 else 0) +
        (match svc? with
         | none => 0
         | some svc => 0x20 + (if svc.start then 0x10 else 0) +
             (if svc.change then 0x08 else 0) + (if svc.complete then 0x04 else 0))) := by
  refine ⟨?_, ?_, ?_⟩
  · intro s fr out h
    unfold CDPWriter.write at h
    split at h
    · cases h
    · cases h
      unfold CDPWriter.writeBody
      rw [List.append_assoc, List.append_assoc, List.append_assoc, List.append_assoc,
        getD_append_left _ _ 4 (by simp)]
      rfl
  · intro tc? svc?
    unfold CDPWriter.flagsByte
    cases tc? <;> cases svc? <;> try rfl
    all_goals
      rename_i svc
      obtain ⟨st, ch, co, svcs⟩ := svc
      cases st <;> cases ch <;> cases co <;>
        simp [ServiceInfo.is_start, ServiceInfo.is_change, ServiceInfo.is_complete]
  · intro tc? svc?
    unfold CDPWriter.flagsByteLib
    cases tc? <;> cases svc? <;> try rfl
    all_goals
      rename_i svc
      obtain ⟨st, ch, co, svcs⟩ := svc
      cases st <;> cases ch <;> cases co <;>
        simp [ServiceInfo.is_start, ServiceInfo.is_change, ServiceInfo.is_complete]

theorem C3_flags_byte_amended_witness :
    emptyWriterPacket.getD 4 0 = CDPWriter.flagsByte none none ∧
    CDPWriter.write emptyWriterState fr25 = some emptyWriterPacket :=
  ⟨C3_flags_byte_amended.1 emptyWriterState fr25 emptyWriterPacket (by decide), by decide⟩

/-- C10 counterexample: starting from the default `ServiceInfo` (which
satisfies the invariant), the mutator sequence `set_change(true)` then
`set_start(false)` yields `change = true` with `start = false`,
contradicting the claim that no mutator sequence can break the
invariant. -/
theorem C10_counterexample :
    svcInvariant ServiceInfo.default ∧
    (applyActions ServiceInfo.default [.setChange true, .setStart false]).change = true ∧
    (applyActions ServiceInfo.default [.setChange true, .setStart false]).start = false :=
  ⟨by decide, by decide, by decide⟩

/-- C10 amended: `set_change(true)` always forces `start = true`, and any
sequence of mutator calls that never includes `set_start(false)`
preserves the invariant `change = true → start = true`; `set_start(false)`
is the one mutator that can break it (see the counterexample). -/
theorem C10_invariant_amended :
    (∀ si : ServiceInfo, (si.set_change true).start = true) ∧
    (∀ (si : ServiceInfo) (actions : List SvcAction), svcInvariant si →
      (∀ a ∈ actions, a ≠ SvcAction.setStart false) →
      svcInvariant (applyActions si actions)) := by
  constructor
  · intro si
    rfl
  · intro si actions
    induction actions generalizing si with
    | nil => intro h _; exact h
    | cons a t ih =>
      intro h hmem
      have hstep : svcInvariant (SvcAction.apply si a) := by
        cases a with
        | setStart v =>
          cases v with
          | false => exact absurd rfl (hmem _ (List.mem_cons_self _ _))
          | true => intro _; rfl
        | setChange v =>
          cases v with
          | false =>
            intro hc
            exact absurd hc (by simp [SvcAction.apply, ServiceInfo.set_change])
          | true => intro _; rfl
        | setComplete v =>
          intro hc
          exact h hc
        | addService e =>
          simp only [SvcAction.apply, ServiceInfo.add_service]
          split
          · rename_i x si2 heq
            split at heq
            · cases heq
            · cases heq
              intro hc
              exact h hc
          · intro hc
            exact h hc
        | clearServices =>
          intro hc
          exact h hc
      have := ih (SvcAction.apply si a) hstep (fun b hb => hmem b (List.mem_cons_of_mem _ hb))
      simpa [applyActions, List.foldl_cons] using this

theorem C10_invariant_amended_witness :
    svcInvariant ServiceInfo.default ∧
    (∀ a ∈ ([SvcAction.setChange true, SvcAction.setComplete true] : List SvcAction),
      a ≠ SvcAction.setStart false) ∧
    svcInvariant (applyActions ServiceInfo.default
      [SvcAction.setChange true, SvcAction.setComplete true]) :=
  ⟨by decide, by decide,
    C10_invariant_amended.2 ServiceInfo.default
      [SvcAction.setChange true, SvcAction.setComplete true] (by decide) (by decide)⟩

/-- C6: for any collaborator behaviour `push`, a failing `parse` call
leaves `service_info` at its previous value while `time_code`,
`framerate` and `sequence` are cleared; a successful call replaces all
four fields with the newly parsed values; consequently, over any sequence
of calls, `service_info` always holds the value committed by the most
recent successful call (or the initial value when there has been
none). -/
theorem C6_session_state :
    (∀ push s data s2 e, CDPParser.parseStep push s data = (s2, .error e) →
      s2.service_info = s.service_info ∧ s2.time_code = none ∧
      s2.framerate = none ∧ s2.sequence = 0) ∧
    (∀ push s data s2, CDPParser.parseStep push s data = (s2, .ok ()) →
      ∃ r, CDPParser.parseCore data = .ok r ∧
        s2 = ⟨r.time_code, some r.framerate, r.service_info, r.sequence⟩) ∧
    (∀ push s inputs, (CDPParser.runParser push s inputs).service_info =
      ((inputs.filterMap (parseCommit push)).getLast?).getD s.service_info) := by
  refine ⟨?_, ?_, ?_⟩
  · intro push s data s2 e h
    unfold CDPParser.parseStep at h
    split at h
    · cases h
      exact ⟨rfl, rfl, rfl, rfl⟩
    · split at h
      · cases h
        exact ⟨rfl, rfl, rfl, rfl⟩
      · cases h
  · intro push s data s2 h
    unfold CDPParser.parseStep at h
    split at h
    · cases h
    · split at h
      · cases h
      · rename_i x1 r hr x2 u hu
        cases h
        cases u
        exact ⟨r, hr, rfl⟩
  · intro push s inputs
    induction inputs generalizing s with
    | nil => rfl
    | cons d t ih =>
      have hrun : CDPParser.runParser push s (d :: t) =
          CDPParser.runParser push ((CDPParser.parseStep push s d).1) t := rfl
      rw [hrun, ih, List.filterMap_cons]
      cases hc : CDPParser.parseCore d with
      | error e =>
        have h1 : (CDPParser.parseStep push s d).1 =
            { s with time_code := none, framerate := none, sequence := 0 } := by
          unfold CDPParser.parseStep
          simp only [hc]
        have h2 : parseCommit push d = none := by
          unfold parseCommit
          simp only [hc]
        rw [h1, h2]
      | ok r =>
        cases hp : (match r.ccBuf with | some buf => push buf | none => Except.ok ()) with
        | error e =>
          have h1 : (CDPParser.parseStep push s d).1 =
              { s with time_code := none, framerate := none, sequence := 0 } := by
            unfold CDPParser.parseStep
            simp only [hc, hp]
          have h2 : parseCommit push d = none := by
            unfold parseCommit
            simp only [hc, hp]
          rw [h1, h2]
        | ok u =>
          cases u
          have h1 : (CDPParser.parseStep push s d).1 =
              ⟨r.time_code, some r.framerate, r.service_info, r.sequence⟩ := by
            unfold CDPParser.parseStep
            simp only [hc, hp]
          have h2 : parseCommit push d = some r.service_info := by
            unfold parseCommit
            simp only [hc, hp]
          rw [h1, h2, getLast?_cons_getD]

theorem C6_session_state_witness :
    (⟨none, none, some ServiceInfo.default, 0⟩ : CDPParserState).service_info =
      (⟨none, none, some ServiceInfo.default, 5⟩ : CDPParserState).service_info ∧
    (⟨none, none, some ServiceInfo.default, 0⟩ : CDPParserState).time_code = none ∧
    (⟨none, none, some ServiceInfo.default, 0⟩ : CDPParserState).framerate = none ∧
    (⟨none, none, some ServiceInfo.default, 0⟩ : CDPParserState).sequence = 0 :=
  C6_session_state.1 (fun _ => .ok ()) ⟨none, none, some ServiceInfo.default, 5⟩ []
    ⟨none, none, some ServiceInfo.default, 0⟩ (.lengthMismatch 11 0) (by decide)

/-- C7: when a packet reaches the service-info section, the block parses,
and its start/change/complete bits disagree with the header flags, parse
fails with `ServiceFlagsMismatched`; and when a packet reaches the footer
with a footer sequence count differing from the header's, parse fails
with `SequenceCountMismatch`. -/
theorem C7_cross_field_checks :
    (∀ (data : List Nat) (tc : Option TimeCode) (idx : Nat) (ccB : Option (List Nat))
        (idx2 : Nat) (si : ServiceInfo),
      11 ≤ data.length → data.getD 0 0 = 0x96 → data.getD 1 0 = 0x69 →
      data.getD 2 0 = data.length →
      (Framerate.from_id ((data.getD 3 0 &&& 0xf0) >>> 4)).isSome →
      parseTC data (Flags.ofByte (data.getD 4 0)) = .ok (tc, idx) →
      parseCC data (Flags.ofByte (data.getD 4 0)) idx = .ok (ccB, idx2) →
      (Flags.ofByte (data.getD 4 0)).svc_info = true →
      idx2 + 2 ≤ data.length →
      data.getD idx2 0 = 0x73 →
      idx2 + (2 + 7 * (data.getD (idx2 + 1) 0 &&& 0x0f)) ≤ data.length →
      ServiceInfo.parse
        ((data.drop idx2).take (2 + 7 * (data.getD (idx2 + 1) 0 &&& 0x0f))) = .ok si →
      (si.is_start ≠ (Flags.ofByte (data.getD 4 0)).svc_info_start ∨
       si.is_change ≠ (Flags.ofByte (data.getD 4 0)).svc_info_change ∨
       si.is_complete ≠ (Flags.ofByte (data.getD 4 0)).svc_info_complete) →
      CDPParser.parseCore data = .error .serviceFlagsMismatched) ∧
    (∀ (data : List Nat) (tc : Option TimeCode) (idx : Nat) (ccB : Option (List Nat))
        (idx2 : Nat) (si? : Option ServiceInfo) (idx3 fIdx : Nat),
      11 ≤ data.length → data.getD 0 0 = 0x96 → data.getD 1 0 = 0x69 →
      data.getD 2 0 = data.length →
      (Framerate.from_id ((data.getD 3 0 &&& 0xf0) >>> 4)).isSome →
      parseTC data (Flags.ofByte (data.getD 4 0)) = .ok (tc, idx) →
      parseCC data (Flags.ofByte (data.getD 4 0)) idx = .ok (ccB, idx2) →
      parseSvcSection data (Flags.ofByte (data.getD 4 0)) idx2 = .ok (si?, idx3) →
      idx3 + 2 ≤ data.length →
      futureLoop data idx3 = .ok fIdx →
      fIdx + 4 ≤ data.length →
      ((data.getD 5 0) <<< 8 ||| data.getD 6 0) ≠
        ((data.getD (fIdx + 1) 0) <<< 8 ||| data.getD (fIdx + 2) 0) →
      CDPParser.parseCore data = .error .sequenceCountMismatch) := by
  constructor
  · intro data tc idx ccB idx2 si h11 h0 h1 hlen hfr htc hcc hflag hl2 hid hl3 hsi hmism
    obtain ⟨fr, hfr2⟩ := Option.isSome_iff_exists.mp hfr
    have hsvc : parseSvcSection data (Flags.ofByte (data.getD 4 0)) idx2 =
        .error .serviceFlagsMismatched := by
      unfold parseSvcSection
      rw [if_pos hflag, if_neg (by omega)]
      rw [if_neg (not_not_intro hid)]
      dsimp only
      rw [if_neg (by omega), hsi]
      dsimp only
      by_cases hs : si.is_start = (Flags.ofByte (data.getD 4 0)).svc_info_start
      · rw [if_neg (not_not_intro hs)]
        by_cases hc : si.is_change = (Flags.ofByte (data.getD 4 0)).svc_info_change
        · rw [if_neg (not_not_intro hc)]
          have hp : si.is_complete ≠ (Flags.ofByte (data.getD 4 0)).svc_info_complete := by
            rcases hmism with h | h | h
            · exact absurd hs h
            · exact absurd hc h
            · exact h
          rw [if_pos hp]
        · rw [if_pos hc]
      · rw [if_pos hs]
    unfold CDPParser.parseCore
    rw [if_neg (by omega), if_neg (not_not_intro ⟨h0, h1⟩)]
    dsimp only
    rw [if_neg (by omega), hfr2]
    dsimp only
    rw [htc]
    dsimp only
    rw [hcc]
    dsimp only
    rw [hsvc]
  · intro data tc idx ccB idx2 si? idx3 fIdx h11 h0 h1 hlen hfr htc hcc hsv hl2 hfl hl4 hseq
    obtain ⟨fr, hfr2⟩ := Option.isSome_iff_exists.mp hfr
    have hfoot : data.getD fIdx 0 = 0x74 := (futureLoop_inv data idx3 fIdx hfl).2
    have hftr : parseFooter data ((data.getD 5 0) <<< 8 ||| data.getD 6 0) fIdx =
        .error .sequenceCountMismatch := by
      unfold parseFooter
      rw [if_neg (by omega), if_neg (not_not_intro hfoot)]
      dsimp only
      rw [if_pos hseq]
    unfold CDPParser.parseCore
    rw [if_neg (by omega), if_neg (not_not_intro ⟨h0, h1⟩)]
    dsimp only
    rw [if_neg (by omega), hfr2]
    dsimp only
    rw [htc]
    dsimp only
    rw [hcc]
    dsimp only
    rw [hsv]
    dsimp only
    rw [if_neg (by omega), hfl]
    dsimp only
    rw [hftr]

theorem C7_cross_field_checks_witness :
    CDPParser.parseCore c7FlagsPacket = .error .serviceFlagsMismatched ∧
    CDPParser.parseCore c7SeqPacket = .error .sequenceCountMismatch :=
  ⟨C7_cross_field_checks.1 c7FlagsPacket none 7 none 7
      ⟨true, false, true, [⟨(0x65, 0x6e, 0x67), .Field true⟩]⟩
      (by decide) (by decide) (by decide) (by decide) (by decide) (by decide) (by decide)
      (by decide) (by decide) (by decide) (by decide) (by decide) (by decide),
   C7_cross_field_checks.2 c7SeqPacket none 7 none 7 none 7 7
      (by decide) (by decide) (by decide) (by decide) (by decide) (by decide) (by decide)
      (by decide) (by decide) (by decide) (by decide) (by decide)⟩

/-- C5 counterexample: `c5CexPacket` is accepted by `CDPParser::parse`
although its final byte (`0xAA`) is not the two's-complement negation of
the wrapping sum of the preceding bytes: the parser compares the byte
three past the footer id (position 10 here), never the buffer's final
byte. -/
theorem C5_counterexample :
    CDPParser.parseCore c5CexPacket = .ok c5CexResult ∧
    c5CexPacket.getD (c5CexPacket.length - 1) 0 = 0xAA ∧
    (256 - (c5CexPacket.take (c5CexPacket.length - 1)).sum % 256) % 256 ≠ 0xAA :=
  ⟨by decide, by decide, by decide⟩

/-- C5 amended: every packet produced by a successful `CDPWriter::write`
sums to 0 mod 256; and `CDPParser::parse` accepts a buffer only if the
byte three past the footer id equals the two's-complement negation of the
wrapping sum of every byte except the final one (when the footer checksum
byte is the final byte — as in every written packet — this is exactly the
claim's condition on the final byte). -/
theorem C5_checksum_amended :
    (∀ s fr out, CDPWriter.write s fr = some out → out.sum % 256 = 0) ∧
    (∀ data r, CDPParser.parseCore data = .ok r →
      r.chkIdx = r.footerIdx + 3 ∧ r.chkIdx + 1 ≤ data.length ∧
      data.getD r.chkIdx 0 = (256 - (data.take (data.length - 1)).sum % 256) % 256) := by
  constructor
  · intro s fr out h
    unfold CDPWriter.write at h
    split at h
    · cases h
    · cases h
      exact sum_body_chk _
  · intro data r h
    have inv := parseCore_ok_inv data r h
    obtain ⟨-, -, -, -, -, -, -, -, -, -, -, -, hft, hck⟩ := inv
    have hfinv := parseFooter_inv data r.sequence r.footerIdx r.chkIdx hft
    have hcinv := checksumCheck_inv data r.chkIdx hck
    refine ⟨hfinv.1, by omega, ?_⟩
    rw [← hcinv, negByte_eq, wrapSum_eq]
    omega

theorem C5_checksum_amended_witness :
    emptyWriterPacket.sum % 256 = 0 ∧
    minimalPacket.getD 10 0 =
      (256 - (minimalPacket.take (minimalPacket.length - 1)).sum % 256) % 256 :=
  ⟨C5_checksum_amended.1 emptyWriterState fr25 emptyWriterPacket (by decide),
   (C5_checksum_amended.2 minimalPacket
      ⟨fr25, Flags.ofByte 1, 0, none, none, none, 7, 7, 7, 7, 10⟩ (by decide)).2.2⟩

/-! ## Byte-level round-trip lemmas -/

theorem and_xf_of_lt (n : Nat) (h : n < 16) : n &&& 0xf = n := by
  rw [Nat.and_pow_two_sub_one_eq_mod n 4]
  exact Nat.mod_eq_of_lt h

theorem and_ff_of_le (n : Nat) (h : n ≤ 255) : n &&& 0xff = n := by
  rw [Nat.and_pow_two_sub_one_eq_mod n 8]
  exact Nat.mod_eq_of_lt (by omega)

theorem cc_count_extract (cnt : Nat) (h : cnt < 32) :
    (0x80 ||| 0x40 ||| cnt) &&& 0x1f = cnt ∧ (0xE0 ||| cnt) &&& 0xe0 = 0xe0 ∧
    (0xE0 ||| cnt) &&& 0x1f = cnt := by
  interval_cases cnt <;> decide

theorem tc_hours_byte (h : Nat) (hh : h ≤ 23) :
    (0xc0 ||| ((h / 10) <<< 4) ||| (h % 10)) &&& 0xc0 = 0xc0 ∧
    (((0xc0 ||| ((h / 10) <<< 4) ||| (h % 10)) &&& 0x30) >>> 4) * 10 +
      ((0xc0 ||| ((h / 10) <<< 4) ||| (h % 10)) &&& 0x0f) = h := by
  interval_cases h <;> decide

theorem tc_minutes_byte (m : Nat) (hm : m ≤ 59) :
    (0x80 ||| ((m / 10) <<< 4) ||| (m % 10)) &&& 0x80 = 0x80 ∧
    (((0x80 ||| ((m / 10) <<< 4) ||| (m % 10)) &&& 0x70) >>> 4) * 10 +
      ((0x80 ||| ((m / 10) <<< 4) ||| (m % 10)) &&& 0x0f) = m := by
  interval_cases m <;> decide

theorem tc_seconds_byte (field : Bool) (sec : Nat) (hs : sec ≤ 59) :
    ((((if field then 0x80 else 0x00) ||| ((sec / 10) <<< 4) ||| (sec % 10)) &&& 0x80) >>> 7
      != 0) = field ∧
    ((((if field then 0x80 else 0x00) ||| ((sec / 10) <<< 4) ||| (sec % 10)) &&& 0x70) >>> 4)
        * 10 +
      (((if field then 0x80 else 0x00) ||| ((sec / 10) <<< 4) ||| (sec % 10)) &&& 0x0f) =
      sec := by
  cases field <;> (interval_cases sec <;> decide)

theorem tc_frames_byte (drop : Bool) (fr : Nat) (hf : fr ≤ 29) :
    (((if drop then 0x80 else 0x0) ||| ((fr / 10) <<< 4) ||| (fr % 10)) &&& 0x80 != 0) =
      drop ∧
    ((if drop then 0x80 else 0x0) ||| ((fr / 10) <<< 4) ||| (fr % 10)) &&& 0x40 = 0x00 ∧
    ((((if drop then 0x80 else 0x0) ||| ((fr / 10) <<< 4) ||| (fr % 10)) &&& 0x30) >>> 4)
        * 10 +
      (((if drop then 0x80 else 0x0) ||| ((fr / 10) <<< 4) ||| (fr % 10)) &&& 0x0f) =
      fr := by
  cases drop <;> (interval_cases fr <;> decide)

theorem svc_header_byte (a b c : Bool) (n : Nat) (hn : n ≤ 15) :
    (0x80 ||| (if a then 0x40 else 0) ||| (if b then 0x20 else 0) |||
        (if c then 0x10 else 0) ||| (n &&& 0xf)) &&& 0x80 = 0x80 ∧
    (0x80 ||| (if a then 0x40 else 0) ||| (if b then 0x20 else 0) |||
        (if c then 0x10 else 0) ||| (n &&& 0xf)) &&& 0x0f = n ∧
    ((0x80 ||| (if a then 0x40 else 0) ||| (if b then 0x20 else 0) |||
        (if c then 0x10 else 0) ||| (n &&& 0xf)) &&& 0x40 != 0) = a ∧
    ((0x80 ||| (if a then 0x40 else 0) ||| (if b then 0x20 else 0) |||
        (if c then 0x10 else 0) ||| (n &&& 0xf)) &&& 0x20 != 0) = b ∧
    ((0x80 ||| (if a then 0x40 else 0) ||| (if b then 0x20 else 0) |||
        (if c then 0x10 else 0) ||| (n &&& 0xf)) &&& 0x10 != 0) = c := by
  cases a <;> cases b <;> cases c <;> (interval_cases n <;> decide)

theorem svc_digital_bytes (s : Nat) (er wa : Bool) (h1 : 1 ≤ s) (h31 : s ≤ 31) :
    (0x80 ||| s) &&& 0x80 = 0x80 ∧ ((0x80 ||| s) &&& 0x40 != 0) = false ∧
    (0x80 ||| s) &&& 0x3f = s ∧
    ((0xc0 ||| s) &&& 0x80 != 0) = true ∧ (0xc0 ||| s) &&& 0x40 = 0x40 ∧
    (0xc0 ||| s) &&& 0x3f = s ∧
    ((0x3f ||| (if er then 0x80 else 0) ||| (if wa then 0x40 else 0)) &&& 0x80 != 0) = er ∧
    ((0x3f ||| (if er then 0x80 else 0) ||| (if wa then 0x40 else 0)) &&& 0x40 != 0) = wa ∧
    (0x3f ||| (if er then 0x80 else 0) ||| (if wa then 0x40 else 0)) &&& 0x3f = 0x3f := by
  cases er <;> cases wa <;> (interval_cases s <;> decide)

theorem framerate_table_roundtrip (fr : Framerate) (h : fr ∈ FRAMERATES) :
    ((fr.id <<< 4 ||| 0x0f) &&& 0xf0) >>> 4 = fr.id ∧
    Framerate.from_id fr.id = some fr := by
  fin_cases h <;> exact ⟨by decide, by decide⟩

theorem flags_decode (tc? : Option TimeCode) (svc? : Option ServiceInfo) :
    Flags.ofByte (CDPWriter.flagsByte tc? svc?) =
      ⟨tc?.isSome, true, svc?.isSome,
       (match svc? with | some svc => svc.start | none => false),
       (match svc? with | some svc => svc.change | none => false),
       (match svc? with | some svc => svc.complete | none => false),
       true, true⟩ := by
  cases tc? <;> cases svc? <;>
    try (rename_i svc
         obtain ⟨st, ch, co, svcs⟩ := svc
         cases st <;> cases ch <;> cases co)
  all_goals
    simp [CDPWriter.flagsByte, Flags.ofByte, ServiceInfo.is_start, ServiceInfo.is_change,
      ServiceInfo.is_complete]
  all_goals decide

theorem write_into_length (e : ServiceEntry) : (ServiceEntry.write_into e).length = 6 := by
  unfold ServiceEntry.write_into
  cases e.service <;> simp

theorem svc_blocks_length (l : List ServiceEntry) :
    ((l.map (fun svc => ServiceInfo.write_svc_header svc :: svc.write_into)).flatten).length =
      7 * l.length := by
  induction l with
  | nil => rfl
  | cons e t ih =>
    simp only [List.map_cons, List.flatten_cons, List.length_append, ih, List.length_cons,
      write_into_length]
    omega

theorem svc_writeBytes_length (si : ServiceInfo) : si.writeBytes.length = si.byte_len := by
  unfold ServiceInfo.writeBytes ServiceInfo.byte_len ServiceInfo.write_header
  rw [List.length_append, svc_blocks_length]
  simp only [List.length_cons, List.length_nil]
  omega

theorem entry_parse_digital (l0 l1 l2 s : Nat) (er wa : Bool) (h1 : 1 ≤ s) (h31 : s ≤ 31) :
    ServiceEntry.parse [l0, l1, l2, 0xc0 ||| s,
      0x3f ||| (if er then 0x80 else 0) ||| (if wa then 0x40 else 0), 0xff] =
      .ok ⟨(l0, l1, l2), .Service ⟨s, er, wa⟩⟩ := by
  have hd := svc_digital_bytes s er wa h1 h31
  have e0 : ([l0, l1, l2, 0xc0 ||| s,
      0x3f ||| (if er then 0x80 else 0) ||| (if wa then 0x40 else 0), 0xff].getD 3 0) =
      0xc0 ||| s := rfl
  have e4 : ([l0, l1, l2, 0xc0 ||| s,
      0x3f ||| (if er then 0x80 else 0) ||| (if wa then 0x40 else 0), 0xff].getD 4 0) =
      0x3f ||| (if er then 0x80 else 0) ||| (if wa then 0x40 else 0) := rfl
  have e5 : ([l0, l1, l2, 0xc0 ||| s,
      0x3f ||| (if er then 0x80 else 0) ||| (if wa then 0x40 else 0), 0xff].getD 5 0) =
      0xff := rfl
  unfold ServiceEntry.parse
  rw [e0, e4, e5]
  rw [if_neg (not_not_intro hd.2.2.2.2.1)]
  dsimp only
  rw [if_pos hd.2.2.2.1, hd.2.2.2.2.2.1]
  rw [if_neg (by omega : ¬s = 0)]
  dsimp only
  rw [if_neg (not_not_intro hd.2.2.2.2.2.2.2.2)]
  rw [if_neg (not_not_intro rfl)]
  rw [hd.2.2.2.2.2.2.1, hd.2.2.2.2.2.2.2.1]
  rfl

theorem entry_parse_write (e : ServiceEntry) (he : e.roundtrips) :
    ServiceEntry.parse e.write_into = .ok e := by
  obtain ⟨lang, fs⟩ := e
  rcases fs with f | d
  · have hf : f = true := he.2.2.2
    subst hf
    simp +decide [ServiceEntry.parse, ServiceEntry.write_into]
  · obtain ⟨s, er, wa⟩ := d
    have h1 : 1 ≤ s := he.2.2.2.1
    have h31 : s ≤ 31 := he.2.2.2.2
    exact entry_parse_digital lang.1 lang.2.1 lang.2.2 s er wa h1 h31

theorem parseSvcEntries_write (l : List ServiceEntry) (hl : ∀ e ∈ l, e.roundtrips) :
    parseSvcEntries
      ((l.map (fun svc => ServiceInfo.write_svc_header svc :: svc.write_into)).flatten)
      l.length = .ok l := by
  induction l with
  | nil => rfl
  | cons e t ih =>
    have he := hl e (List.mem_cons_self _ _)
    have hrest : ∀ x ∈ t, x.roundtrips := fun x hx => hl x (List.mem_cons_of_mem _ hx)
    have hpe := entry_parse_write e he
    have hwlen : (ServiceEntry.write_into e).length = 6 := write_into_length e
    simp only [List.map_cons, List.flatten_cons, List.length_cons]
    have hwin : (((ServiceInfo.write_svc_header e :: e.write_into) ++
        ((t.map (fun svc => ServiceInfo.write_svc_header svc :: svc.write_into)).flatten)).drop
          1).take 6 = e.write_into := by
      rw [List.cons_append, List.drop_succ_cons, List.drop_zero]
      exact List.take_left' hwlen
    have hdrop7 : ((ServiceInfo.write_svc_header e :: e.write_into) ++
        ((t.map (fun svc => ServiceInfo.write_svc_header svc :: svc.write_into)).flatten)).drop
          7 = (t.map (fun svc => ServiceInfo.write_svc_header svc :: svc.write_into)).flatten := by
      rw [List.cons_append, List.drop_succ_cons]
      exact List.drop_left' hwlen
    have hb0 : ((ServiceInfo.write_svc_header e :: e.write_into) ++
        ((t.map (fun svc => ServiceInfo.write_svc_header svc :: svc.write_into)).flatten)).getD
          0 0 = ServiceInfo.write_svc_header e := rfl
    simp only [parseSvcEntries, hb0, hwin, hdrop7, hpe, ih hrest]
    obtain ⟨lang, fs⟩ := e
    rcases fs with f | d
    · have hf : f = true := he.2.2.2
      subst hf
      simp +decide [ServiceInfo.write_svc_header]
    · obtain ⟨s, er, wa⟩ := d
      have h1 : 1 ≤ s := he.2.2.2.1
      have h31 : s ≤ 31 := he.2.2.2.2
      have hd := svc_digital_bytes s er wa h1 h31
      simp only [ServiceInfo.write_svc_header]
      rw [if_neg (not_not_intro hd.1)]
      rw [hd.2.1]
      simp only [Bool.false_eq_true, if_false]
      rw [hd.2.2.1]
      simp only [if_neg (by omega : ¬s ≠ s)]

theorem svcInfo_parse_write (si : ServiceInfo) (h : si.roundtrips) :
    ServiceInfo.parse si.writeBytes = .ok si := by
  obtain ⟨st, ch, co, svcs⟩ := si
  have hn : svcs.length ≤ 15 := h.1
  have hh := svc_header_byte st ch co svcs.length hn
  have hlen : (ServiceInfo.writeBytes ⟨st, ch, co, svcs⟩).length = svcs.length * 7 + 2 := by
    rw [svc_writeBytes_length]
    rfl
  have hg0 : (ServiceInfo.writeBytes ⟨st, ch, co, svcs⟩).getD 0 0 = 0x73 := rfl
  have hg1 : (ServiceInfo.writeBytes ⟨st, ch, co, svcs⟩).getD 1 0 =
      0x80 ||| (if st then 0x40 else 0) ||| (if ch then 0x20 else 0) |||
        (if co then 0x10 else 0) ||| (svcs.length &&& 0xf) := rfl
  have hdrop2 : (ServiceInfo.writeBytes ⟨st, ch, co, svcs⟩).drop 2 =
      (svcs.map (fun svc => ServiceInfo.write_svc_header svc :: svc.write_into)).flatten := rfl
  unfold ServiceInfo.parse
  rw [hg0, hg1, hdrop2]
  rw [if_neg (by omega), if_neg (not_not_intro rfl), if_neg (not_not_intro hh.1)]
  dsimp only
  rw [hh.2.1]
  rw [if_neg (by omega : ¬(ServiceInfo.writeBytes ⟨st, ch, co, svcs⟩).length ≠
    svcs.length * 7 + 2)]
  rw [parseSvcEntries_write svcs h.2]
  dsimp only
  rw [hh.2.2.1, hh.2.2.2.1, hh.2.2.2.2]

theorem parseTC_write (data : List Nat) (flags : Flags) (tc : TimeCode) (rest : List Nat)
    (hflag : flags.time_code = true) (htc : tc.valid)
    (hdrop : data.drop 7 = tc.writeBytes ++ rest) :
    parseTC data flags = .ok (some tc, 12) := by
  have hlen7 : data.length - 7 = 5 + rest.length := by
    rw [← List.length_drop, hdrop]
    simp [TimeCode.writeBytes]
    omega
  have hwb : (TimeCode.writeBytes tc).length = 5 := by simp [TimeCode.writeBytes]
  have egen : ∀ j, j < 5 → data.getD (7 + j) 0 = (TimeCode.writeBytes tc).getD j 0 := by
    intro j hj
    rw [← getD_drop, hdrop, getD_append_left _ _ j (by omega)]
  have e7 : data.getD 7 0 = 0x71 := egen 0 (by omega)
  have e8 : data.getD 8 0 = 0xc0 ||| ((tc.hours / 10) <<< 4) ||| (tc.hours % 10) :=
    egen 1 (by omega)
  have e9 : data.getD 9 0 = 0x80 ||| ((tc.minutes / 10) <<< 4) ||| (tc.minutes % 10) :=
    egen 2 (by omega)
  have e10 : data.getD 10 0 =
      (if tc.field then 0x80 else 0x00) ||| ((tc.seconds / 10) <<< 4) ||| (tc.seconds % 10) :=
    egen 3 (by omega)
  have e11 : data.getD 11 0 =
      (if tc.drop_frame then 0x80 else 0x0) ||| ((tc.frames / 10) <<< 4) ||| (tc.frames % 10) :=
    egen 4 (by omega)
  have hH := tc_hours_byte tc.hours htc.1
  have hM := tc_minutes_byte tc.minutes htc.2.1
  have hS := tc_seconds_byte tc.field tc.seconds htc.2.2.1
  have hF := tc_frames_byte tc.drop_frame tc.frames htc.2.2.2
  unfold parseTC
  rw [if_pos hflag, if_neg (by omega), e7, if_neg (not_not_intro rfl), e8,
    if_neg (not_not_intro hH.1), e9, if_neg (not_not_intro hM.1), e10, e11,
    if_neg (not_not_intro hF.2.1), hH.2, hM.2, hS.1, hS.2, hF.1, hF.2.2]

theorem parseCC_write (data : List Nat) (flags : Flags) (idx cnt : Nat)
    (payload rest : List Nat) (hflag : flags.cc_data = true) (hcnt : cnt < 32)
    (hpay : payload.length = 3 * cnt)
    (hdrop : data.drop idx = 0x72 :: (0xE0 ||| cnt) :: (payload ++ rest)) :
    parseCC data flags idx =
      .ok (some ((0x80 ||| 0x40 ||| cnt) :: 0xFF :: payload), idx + 2 + cnt * 3) := by
  have hcc := cc_count_extract cnt hcnt
  have hlenI : data.length - idx = 2 + payload.length + rest.length := by
    rw [← List.length_drop, hdrop]
    simp
    omega
  have e0 : data.getD idx 0 = 0x72 := by
    have := getD_drop data idx 0
    rw [hdrop] at this
    simpa using this.symm
  have e1 : data.getD (idx + 1) 0 = 0xE0 ||| cnt := by
    have := getD_drop data idx 1
    rw [hdrop] at this
    simpa using this.symm
  have eslice : (data.drop (idx + 2)).take (cnt * 3) = payload := by
    have hdd : data.drop (idx + 2) = payload ++ rest := by
      have : (data.drop idx).drop 2 = payload ++ rest := by
        rw [hdrop]
        rfl
      rwa [List.drop_drop] at this
    rw [hdd]
    exact List.take_left' (by omega)
  unfold parseCC
  rw [if_pos hflag, if_neg (by omega), e0, if_neg (not_not_intro rfl), e1,
    if_neg (not_not_intro hcc.2.1)]
  dsimp only
  rw [hcc.2.2, if_neg (by omega), eslice]

theorem parseSvcSection_write (data : List Nat) (flags : Flags) (idx : Nat)
    (si : ServiceInfo) (rest : List Nat) (hflag : flags.svc_info = true)
    (hsi : si.roundtrips)
    (hst : flags.svc_info_start = si.start) (hch : flags.svc_info_change = si.change)
    (hco : flags.svc_info_complete = si.complete)
    (hdrop : data.drop idx = si.writeBytes ++ rest) :
    parseSvcSection data flags idx = .ok (some si, idx + (2 + 7 * si.services.length)) := by
  obtain ⟨st, ch, co, svcs⟩ := si
  have hn : svcs.length ≤ 15 := hsi.1
  have hh := svc_header_byte st ch co svcs.length hn
  have hwlen : (ServiceInfo.writeBytes ⟨st, ch, co, svcs⟩).length = svcs.length * 7 + 2 := by
    rw [svc_writeBytes_length]
    rfl
  have hlenI : data.length - idx = svcs.length * 7 + 2 + rest.length := by
    rw [← List.length_drop, hdrop, List.length_append, hwlen]
  have e0 : data.getD idx 0 = 0x73 := by
    have := getD_drop data idx 0
    rw [hdrop] at this
    rw [getD_append_left _ _ 0 (by omega)] at this
    exact this.symm
  have e1 : data.getD (idx + 1) 0 =
      0x80 ||| (if st then 0x40 else 0) ||| (if ch then 0x20 else 0) |||
        (if co then 0x10 else 0) ||| (svcs.length &&& 0xf) := by
    have := getD_drop data idx 1
    rw [hdrop] at this
    rw [getD_append_left _ _ 1 (by omega)] at this
    exact this.symm
  have eslice : (data.drop idx).take (2 + 7 * svcs.length) =
      ServiceInfo.writeBytes ⟨st, ch, co, svcs⟩ := by
    rw [hdrop]
    exact List.take_left' (by omega)
  unfold parseSvcSection
  rw [if_pos hflag, if_neg (by omega), e0, if_neg (not_not_intro rfl), e1]
  dsimp only
  rw [hh.2.1]
  rw [if_neg (by omega), eslice, svcInfo_parse_write ⟨st, ch, co, svcs⟩ hsi]
  dsimp only [ServiceInfo.is_start, ServiceInfo.is_change, ServiceInfo.is_complete]
  rw [if_neg (not_not_intro hst.symm), if_neg (not_not_intro hch.symm),
    if_neg (not_not_intro hco.symm)]

theorem ccSection_eq (s : CDPWriterState) (h : s.cc_count < 32) :
    CDPWriter.ccSection s = 0x72 :: (0xE0 ||| s.cc_count) :: s.ccPayload := by
  unfold CDPWriter.ccSection ccWriterOutput
  dsimp only [List.set, List.getD_cons_zero]
  rw [(cc_count_extract s.cc_count h).1]

theorem ccSection_length (s : CDPWriterState) :
    (CDPWriter.ccSection s).length = 2 + s.ccPayload.length := by
  unfold CDPWriter.ccSection ccWriterOutput
  simp
  omega

theorem writeBody_decomp (s : CDPWriterState) (fr : Framerate) (hcnt : s.cc_count < 32) :
    CDPWriter.writeBody s fr =
      [0x96, 0x69, CDPWriter.writeLen s &&& 0xff, fr.id <<< 4 ||| 0x0f,
       CDPWriter.flagsByte s.time_code s.service_info,
       (s.sequence_count &&& 0xff00) >>> 8, s.sequence_count &&& 0xff] ++
      (tcBytesOpt s.time_code ++ ((0x72 :: (0xE0 ||| s.cc_count) :: s.ccPayload) ++
        (svcBytesOpt s.service_info ++
         [0x74, (s.sequence_count &&& 0xff00) >>> 8, s.sequence_count &&& 0xff]))) := by
  have hcc := ccSection_eq s hcnt
  obtain ⟨tc?, si?, seq, cnt, pay⟩ := s
  cases tc? <;> cases si? <;>
    simp only [CDPWriter.writeBody, hcc, tcBytesOpt, svcBytesOpt, List.append_assoc,
      List.cons_append, List.nil_append]

theorem writeLen_decomp (s : CDPWriterState) (fr : Framerate) :
    CDPWriter.writeLen s = (CDPWriter.writeBody s fr).length + 1 := by
  unfold CDPWriter.writeLen CDPWriter.writeBody
  obtain ⟨tc?, si?, seq, cnt, pay⟩ := s
  cases tc? <;> cases si? <;>
    simp [ccSection_length, svc_writeBytes_length, ServiceInfo.byte_len,
      TimeCode.writeBytes] <;>
    omega

theorem flags_decodeB (tc? : Option TimeCode) (svc? : Option ServiceInfo) :
    Flags.ofByte (CDPWriter.flagsByte tc? svc?) =
      ⟨tc?.isSome, true, svc?.isSome, startOpt svc?, changeOpt svc?, completeOpt svc?,
       true, true⟩ := by
  rw [flags_decode]
  cases svc? <;> rfl

theorem parseTC_writeOpt (data : List Nat) (flags : Flags) (tc? : Option TimeCode)
    (rest : List Nat) (hflag : flags.time_code = tc?.isSome)
    (htc : ∀ tc ∈ tc?, tc.valid)
    (hdrop : data.drop 7 = tcBytesOpt tc? ++ rest) :
    parseTC data flags = .ok (tc?, 7 + (tcBytesOpt tc?).length) := by
  cases tc? with
  | none =>
    unfold parseTC
    rw [hflag]
    simp [tcBytesOpt]
  | some tc =>
    have h := parseTC_write data flags tc rest (by simpa using hflag) (htc tc rfl)
      (by simpa [tcBytesOpt] using hdrop)
    rw [h]
    simp [tcBytesOpt, TimeCode.writeBytes]

theorem parseSvc_writeOpt (data : List Nat) (flags : Flags) (idx : Nat)
    (si? : Option ServiceInfo) (rest : List Nat)
    (hflag : flags.svc_info = si?.isSome)
    (hst : flags.svc_info_start = startOpt si?)
    (hch : flags.svc_info_change = changeOpt si?)
    (hco : flags.svc_info_complete = completeOpt si?)
    (hsi : ∀ si ∈ si?, si.roundtrips)
    (hdrop : data.drop idx = svcBytesOpt si? ++ rest) :
    parseSvcSection data flags idx = .ok (si?, idx + (svcBytesOpt si?).length) := by
  cases si? with
  | none =>
    unfold parseSvcSection
    rw [hflag]
    simp [svcBytesOpt]
  | some si =>
    have h := parseSvcSection_write data flags idx si rest (by simpa using hflag)
      (hsi si rfl) (by simpa [startOpt, ServiceInfo.is_start] using hst)
      (by simpa [changeOpt, ServiceInfo.is_change] using hch)
      (by simpa [completeOpt, ServiceInfo.is_complete] using hco)
      (by simpa [svcBytesOpt] using hdrop)
    rw [h]
    have : (svcBytesOpt (some si)).length = 2 + 7 * si.services.length := by
      simp [svcBytesOpt, svc_writeBytes_length, ServiceInfo.byte_len]
      omega
    rw [this]

theorem parse_tail_write (data : List Nat) (seq idx3 : Nat)
    (hlen : data.length = idx3 + 4) (hseq : seq < 65536)
    (hdrop : data.drop idx3 = [0x74, (seq &&& 0xff00) >>> 8, seq &&& 0xff,
        negByte (wrapSum (data.take (idx3 + 3)))]) :
    futureLoop data idx3 = .ok idx3 ∧
    parseFooter data seq idx3 = .ok (idx3 + 3) ∧
    checksumCheck data (idx3 + 3) = .ok () := by
  have e0 : data.getD idx3 0 = 0x74 := by
    have := getD_drop data idx3 0
    rw [hdrop] at this
    simpa using this.symm
  have e1 : data.getD (idx3 + 1) 0 = (seq &&& 0xff00) >>> 8 := by
    have := getD_drop data idx3 1
    rw [hdrop] at this
    simpa using this.symm
  have e2 : data.getD (idx3 + 2) 0 = seq &&& 0xff := by
    have := getD_drop data idx3 2
    rw [hdrop] at this
    simpa using this.symm
  have e3 : data.getD (idx3 + 3) 0 = negByte (wrapSum (data.take (idx3 + 3))) := by
    have := getD_drop data idx3 3
    rw [hdrop] at this
    simpa using this.symm
  refine ⟨?_, ?_, ?_⟩
  · have hfuel : futureLoop data idx3 = futureLoopN data ((idx3 + 3) + 1) idx3 := by
      rw [futureLoop, hlen]
    rw [hfuel]
    simp only [futureLoopN]
    rw [e0, if_pos rfl]
  · unfold parseFooter
    rw [if_neg (by omega), e0, if_neg (not_not_intro rfl), e1, e2]
    dsimp only
    rw [seq_split seq hseq, if_neg (not_not_intro rfl)]
  · unfold checksumCheck
    rw [e3]
    rw [show data.length - 1 = idx3 + 3 from by omega]
    simp

/-- C1 refuted as stated: `c1CexState` is a valid writer state under the
claim's own conditions (no time code, a service-info block with a single
entry), yet parsing the packet `CDPWriter::write` produces from it fails
with `ServiceNumberMismatch`, because `write_svc_header` encodes a
CEA-608 field-2 entry with the low bit set while the parser requires a
zero service number on field entries. -/
theorem C1_counterexample :
    c1CexState.time_code = none ∧
    (∀ si ∈ c1CexState.service_info, si.services.length ≤ 15) ∧
    (CDPWriter.write c1CexState fr25).map CDPParser.parseCore =
      some (.error .serviceNumberMismatch) := by
  refine ⟨rfl, ?_, by decide⟩
  intro si h
  rw [Option.mem_def] at h
  cases h
  decide

/-- C1 amended: for every writer state whose optional time code is in
range, whose optional service-info block has at most 15 entries each of
which survives the header encoding (CEA-608 field-1 entries or CEA-708
services 1-31), whose sequence count fits 16 bits and whose queued cc
payload matches its count, `CDPWriter::write` followed by
`CDPParser::parse` succeeds and returns the written time code, sequence
count, framerate and service info, and hands the collaborator exactly the
cc buffer the writer serialized. -/
theorem C1_roundtrip_amended (s : CDPWriterState) (fr : Framerate) (out : List Nat)
    (hfr : fr ∈ FRAMERATES)
    (htc : ∀ tc ∈ s.time_code, tc.valid)
    (hsi : ∀ si ∈ s.service_info, si.roundtrips)
    (hseq : s.sequence_count < 65536)
    (hcnt : s.cc_count < 32)
    (hpay : s.ccPayload.length = 3 * s.cc_count)
    (hw : CDPWriter.write s fr = some out) :
    ∃ r, CDPParser.parseCore out = .ok r ∧ r.time_code = s.time_code ∧
      r.sequence = s.sequence_count ∧ r.framerate = fr ∧
      r.service_info = s.service_info ∧
      r.ccBuf = some (ccWriterOutput s.cc_count s.ccPayload) := by
  unfold CDPWriter.write at hw
  split at hw
  · simp at hw
  · rename_i h255
    have hout0 : out = CDPWriter.writeBody s fr ++
        [negByte (wrapSum (CDPWriter.writeBody s fr))] := (Option.some.inj hw).symm
    have hdecomp := writeBody_decomp s fr hcnt
    generalize hc : negByte (wrapSum (CDPWriter.writeBody s fr)) = c at hout0
    have hout : out =
        0x96 :: 0x69 :: (CDPWriter.writeLen s &&& 0xff) :: (fr.id <<< 4 ||| 0x0f) ::
        CDPWriter.flagsByte s.time_code s.service_info ::
        ((s.sequence_count &&& 0xff00) >>> 8) :: (s.sequence_count &&& 0xff) ::
        (tcBytesOpt s.time_code ++
          (0x72 :: (0xE0 ||| s.cc_count) :: (s.ccPayload ++
            (svcBytesOpt s.service_info ++
              [0x74, (s.sequence_count &&& 0xff00) >>> 8,
               s.sequence_count &&& 0xff, c])))) := by
      rw [hout0, hdecomp]
      simp only [List.append_assoc, List.cons_append, List.nil_append]
    have g2 : out.getD 2 0 = CDPWriter.writeLen s &&& 0xff := by rw [hout]; rfl
    have g3 : out.getD 3 0 = fr.id <<< 4 ||| 0x0f := by rw [hout]; rfl
    have g4 : out.getD 4 0 = CDPWriter.flagsByte s.time_code s.service_info := by
      rw [hout]; rfl
    have g5 : out.getD 5 0 = (s.sequence_count &&& 0xff00) >>> 8 := by rw [hout]; rfl
    have g6 : out.getD 6 0 = s.sequence_count &&& 0xff := by rw [hout]; rfl
    have d7 : out.drop 7 = tcBytesOpt s.time_code ++
        (0x72 :: (0xE0 ||| s.cc_count) :: (s.ccPayload ++
          (svcBytesOpt s.service_info ++
            [0x74, (s.sequence_count &&& 0xff00) >>> 8,
             s.sequence_count &&& 0xff, c]))) := by
      rw [hout]; rfl
    have hbl : (CDPWriter.writeBody s fr).length =
        7 + (tcBytesOpt s.time_code).length + 2 + s.cc_count * 3 +
          (svcBytesOpt s.service_info).length + 3 := by
      rw [hdecomp]
      simp only [List.length_append, List.length_cons, List.length_nil, hpay]
      omega
    have hlenout : out.length =
        7 + (tcBytesOpt s.time_code).length + 2 + s.cc_count * 3 +
          (svcBytesOpt s.service_info).length + 4 := by
      rw [hout0]
      simp only [List.length_append, List.length_cons, List.length_nil]
      omega
    have hwl : CDPWriter.writeLen s = out.length := by
      rw [writeLen_decomp s fr, hout0]
      simp
    have hTC := parseTC_writeOpt out
      ⟨s.time_code.isSome, true, s.service_info.isSome, startOpt s.service_info,
       changeOpt s.service_info, completeOpt s.service_info, true, true⟩
      s.time_code _ rfl htc d7
    have hdropcc : out.drop (7 + (tcBytesOpt s.time_code).length) =
        0x72 :: (0xE0 ||| s.cc_count) :: (s.ccPayload ++
          (svcBytesOpt s.service_info ++
            [0x74, (s.sequence_count &&& 0xff00) >>> 8,
             s.sequence_count &&& 0xff, c])) := by
      have h1 : out.drop (7 + (tcBytesOpt s.time_code).length) =
          (out.drop 7).drop (tcBytesOpt s.time_code).length := by
        rw [List.drop_drop]
      rw [h1, d7]
      exact List.drop_left' rfl
    have hCC := parseCC_write out
      ⟨s.time_code.isSome, true, s.service_info.isSome, startOpt s.service_info,
       changeOpt s.service_info, completeOpt s.service_info, true, true⟩
      (7 + (tcBytesOpt s.time_code).length) s.cc_count s.ccPayload _ rfl hcnt hpay hdropcc
    have hdropsvc : out.drop (7 + (tcBytesOpt s.time_code).length + 2 + s.cc_count * 3) =
        svcBytesOpt s.service_info ++
          [0x74, (s.sequence_count &&& 0xff00) >>> 8, s.sequence_count &&& 0xff, c] := by
      have h1 : out.drop (7 + (tcBytesOpt s.time_code).length + 2 + s.cc_count * 3) =
          (out.drop (7 + (tcBytesOpt s.time_code).length)).drop (2 + s.cc_count * 3) := by
        rw [List.drop_drop]
        congr 1
        omega
      rw [h1, hdropcc]
      rw [show (0x72 :: (0xE0 ||| s.cc_count) :: (s.ccPayload ++
          (svcBytesOpt s.service_info ++
            [0x74, (s.sequence_count &&& 0xff00) >>> 8,
             s.sequence_count &&& 0xff, c]))) =
          (0x72 :: (0xE0 ||| s.cc_count) :: s.ccPayload) ++
          (svcBytesOpt s.service_info ++
            [0x74, (s.sequence_count &&& 0xff00) >>> 8,
             s.sequence_count &&& 0xff, c]) from by simp]
      exact List.drop_left' (by
        simp only [List.length_cons, hpay]
        omega)
    have hSVC := parseSvc_writeOpt out
      ⟨s.time_code.isSome, true, s.service_info.isSome, startOpt s.service_info,
       changeOpt s.service_info, completeOpt s.service_info, true, true⟩
      (7 + (tcBytesOpt s.time_code).length + 2 + s.cc_count * 3) s.service_info _
      rfl rfl rfl rfl hsi hdropsvc
    have hdroptail0 : out.drop (7 + (tcBytesOpt s.time_code).length + 2 +
        s.cc_count * 3 + (svcBytesOpt s.service_info).length) =
        [0x74, (s.sequence_count &&& 0xff00) >>> 8, s.sequence_count &&& 0xff, c] := by
      have h1 : out.drop (7 + (tcBytesOpt s.time_code).length + 2 + s.cc_count * 3 +
          (svcBytesOpt s.service_info).length) =
          (out.drop (7 + (tcBytesOpt s.time_code).length + 2 + s.cc_count * 3)).drop
            (svcBytesOpt s.service_info).length := by
        rw [List.drop_drop]
      rw [h1, hdropsvc]
      exact List.drop_left' rfl
    have htake : out.take (7 + (tcBytesOpt s.time_code).length + 2 + s.cc_count * 3 +
        (svcBytesOpt s.service_info).length + 3) = CDPWriter.writeBody s fr := by
      rw [hout0]
      exact List.take_left' (by omega)
    have htail := parse_tail_write out s.sequence_count
      (7 + (tcBytesOpt s.time_code).length + 2 + s.cc_count * 3 +
        (svcBytesOpt s.service_info).length)
      (by omega) hseq (by rw [hdroptail0, htake, hc])
    obtain ⟨hFL, hPF, hCK⟩ := htail
    refine ⟨⟨fr,
      ⟨s.time_code.isSome, true, s.service_info.isSome, startOpt s.service_info,
       changeOpt s.service_info, completeOpt s.service_info, true, true⟩,
      s.sequence_count, s.time_code, some (ccWriterOutput s.cc_count s.ccPayload),
      s.service_info,
      7 + (tcBytesOpt s.time_code).length,
      7 + (tcBytesOpt s.time_code).length + 2 + s.cc_count * 3,
      7 + (tcBytesOpt s.time_code).length + 2 + s.cc_count * 3 +
        (svcBytesOpt s.service_info).length,
      7 + (tcBytesOpt s.time_code).length + 2 + s.cc_count * 3 +
        (svcBytesOpt s.service_info).length,
      7 + (tcBytesOpt s.time_code).length + 2 + s.cc_count * 3 +
        (svcBytesOpt s.service_info).length + 3⟩, ?_, rfl, rfl, rfl, rfl, rfl⟩
    unfold CDPParser.parseCore
    dsimp only
    rw [if_neg (by omega : ¬out.length < 11),
      if_neg (not_not_intro ⟨(by rw [hout]; rfl : out.getD 0 0 = 0x96),
        (by rw [hout]; rfl : out.getD 1 0 = 0x69)⟩),
      g2, and_ff_of_le (CDPWriter.writeLen s) (by omega),
      if_neg (not_not_intro hwl.symm), g3,
      (framerate_table_roundtrip fr hfr).1, (framerate_table_roundtrip fr hfr).2]
    dsimp only
    rw [g4, flags_decodeB, g5, g6, seq_split s.sequence_count hseq, hTC]
    dsimp only
    rw [hCC]
    dsimp only
    rw [hSVC]
    dsimp only
    rw [if_neg (by omega : ¬out.length < 7 + (tcBytesOpt s.time_code).length + 2 +
        s.cc_count * 3 + (svcBytesOpt s.service_info).length + 2), hFL]
    dsimp only
    rw [hPF]
    dsimp only
    rw [hCK]
    rfl

theorem C1_roundtrip_amended_witness :
    ∃ r, CDPParser.parseCore c1WitnessPacket = .ok r ∧
      r.time_code = c1WitnessState.time_code ∧
      r.sequence = c1WitnessState.sequence_count ∧ r.framerate = fr25 ∧
      r.service_info = c1WitnessState.service_info ∧
      r.ccBuf = some (ccWriterOutput c1WitnessState.cc_count c1WitnessState.ccPayload) :=
  C1_roundtrip_amended c1WitnessState fr25 c1WitnessPacket (by decide)
    (by intro tc h
        rw [Option.mem_def] at h
        cases h
        exact ⟨by decide, by decide, by decide, by decide⟩)
    (by intro si h
        rw [Option.mem_def] at h
        cases h
        refine ⟨by decide, ?_⟩
        intro e he
        fin_cases he <;> exact ⟨by decide, by decide, by decide, by decide⟩)
    (by decide) (by decide) (by decide) (by decide)

theorem flip_keep_mask (x f m : Nat) (hf : f &&& m = 0) : (x ^^^ f) &&& m = x &&& m := by
  rw [Nat.and_xor_distrib_right, hf, Nat.xor_zero]

theorem getD_take (l : List Nat) (n i : Nat) (h : i < n) :
    (l.take n).getD i 0 = l.getD i 0 := by
  simp [List.getD_eq_getElem?_getD, List.getElem?_take_of_lt h]

theorem set_drop_comm (l : List Nat) (q v n : Nat) (h : n ≤ q) :
    (l.set q v).drop n = (l.drop n).set (q - n) v := by
  apply List.ext_getElem?
  intro i
  rw [List.getElem?_drop]
  rcases eq_or_ne (n + i) q with he | hne
  · rcases lt_or_ge q l.length with hq | hq
    · rw [he, List.getElem?_set_self hq]
      have : i = q - n := by omega
      rw [this, List.getElem?_set_self (by rw [List.length_drop]; omega)]
    · rw [List.set_eq_of_length_le hq, List.set_eq_of_length_le
        (by rw [List.length_drop]; omega), List.getElem?_drop]
  · rw [List.getElem?_set_ne hne.symm, List.getElem?_set_ne (by omega : q - n ≠ i),
      List.getElem?_drop]

theorem parseTC_mono (data dataB : List Nat) (flags : Flags) (v : Option TimeCode × Nat)
    (h : parseTC data flags = .ok v) (hlen : data.length ≤ dataB.length)
    (hag : ∀ j, 7 ≤ j → j < 12 → dataB.getD j 0 = data.getD j 0) :
    parseTC dataB flags = .ok v := by
  unfold parseTC at h ⊢
  by_cases hf : flags.time_code = true
  · rw [if_pos hf] at h ⊢
    rw [hag 7 (by omega) (by omega), hag 8 (by omega) (by omega),
      hag 9 (by omega) (by omega), hag 10 (by omega) (by omega),
      hag 11 (by omega) (by omega)]
    split at h
    · cases h
    rename_i hl
    rw [if_neg (by omega : ¬dataB.length < 7 + 5)]
    exact h
  · rw [if_neg hf] at h ⊢
    exact h

theorem parseCC_mono (data dataB : List Nat) (flags : Flags) (idx : Nat)
    (v : Option (List Nat) × Nat)
    (h : parseCC data flags idx = .ok v) (hlen : data.length ≤ dataB.length)
    (hag : ∀ j, idx ≤ j → j < idx + 2 + (data.getD (idx + 1) 0 &&& 0x1f) * 3 →
      dataB[j]? = data[j]?) :
    parseCC dataB flags idx = .ok v := by
  unfold parseCC at h ⊢
  by_cases hf : flags.cc_data = true
  · rw [if_pos hf] at h ⊢
    have hg0 : dataB.getD idx 0 = data.getD idx 0 := by
      have := hag idx (le_refl idx) (by omega)
      simp [List.getD_eq_getElem?_getD, this]
    have hg1 : dataB.getD (idx + 1) 0 = data.getD (idx + 1) 0 := by
      have := hag (idx + 1) (by omega) (by omega)
      simp [List.getD_eq_getElem?_getD, this]
    rw [hg0, hg1]
    dsimp only at h ⊢
    split at h
    · cases h
    rename_i hl1
    split at h
    · cases h
    rename_i hm
    split at h
    · cases h
    rename_i hfb
    split at h
    · cases h
    rename_i hl2
    have hslice : (dataB.drop (idx + 2)).take ((data.getD (idx + 1) 0 &&& 0x1f) * 3) =
        (data.drop (idx + 2)).take ((data.getD (idx + 1) 0 &&& 0x1f) * 3) := by
      apply take_drop_agree
      intro j hj1 hj2
      exact hag j (by omega) (by omega)
    rw [if_neg (by omega : ¬dataB.length < idx + 2), if_neg hm, if_neg hfb,
      if_neg (by omega : ¬dataB.length < idx + 2 + (data.getD (idx + 1) 0 &&& 0x1f) * 3),
      hslice]
    exact h
  · rw [if_neg hf] at h ⊢
    exact h

theorem parseSvc_mono (data dataB : List Nat) (flags : Flags) (idx : Nat)
    (v : Option ServiceInfo × Nat)
    (h : parseSvcSection data flags idx = .ok v) (hlen : data.length ≤ dataB.length)
    (hag : ∀ j, idx ≤ j → j < idx + 2 + 7 * (data.getD (idx + 1) 0 &&& 0x0f) →
      dataB[j]? = data[j]?) :
    parseSvcSection dataB flags idx = .ok v := by
  unfold parseSvcSection at h ⊢
  by_cases hf : flags.svc_info = true
  · rw [if_pos hf] at h ⊢
    have hg0 : dataB.getD idx 0 = data.getD idx 0 := by
      have := hag idx (le_refl idx) (by omega)
      simp [List.getD_eq_getElem?_getD, this]
    have hg1 : dataB.getD (idx + 1) 0 = data.getD (idx + 1) 0 := by
      have := hag (idx + 1) (by omega) (by omega)
      simp [List.getD_eq_getElem?_getD, this]
    rw [hg0, hg1]
    dsimp only at h ⊢
    split at h
    · cases h
    rename_i hl1
    split at h
    · cases h
    rename_i hm
    split at h
    · cases h
    rename_i hl2
    have hslice : (dataB.drop idx).take (2 + 7 * (data.getD (idx + 1) 0 &&& 0x0f)) =
        (data.drop idx).take (2 + 7 * (data.getD (idx + 1) 0 &&& 0x0f)) := by
      apply take_drop_agree
      intro j hj1 hj2
      exact hag j (by omega) (by omega)
    rw [if_neg (by omega : ¬dataB.length < idx + 2), if_neg hm,
      if_neg (by omega : ¬dataB.length < idx + (2 + 7 * (data.getD (idx + 1) 0 &&& 0x0f))),
      hslice]
    exact h
  · rw [if_neg hf] at h ⊢
    exact h

theorem parseTC_flip (data : List Nat) (flags : Flags) (p b : Nat)
    (hf : flags.time_code = true) (hlen : 12 ≤ data.length)
    (h71 : data.getD 7 0 = 0x71) (h8 : data.getD 8 0 &&& 0xc0 = 0xc0)
    (h9 : data.getD 9 0 &&& 0x80 = 0x80) (h11 : data.getD 11 0 &&& 0x40 = 0)
    (hpb : (p = 8 ∧ (b = 6 ∨ b = 7)) ∨ (p = 9 ∧ b = 7) ∨ (p = 11 ∧ b = 6)) :
    parseTC (flipBit data p b) flags = .error .invalidFixedBits := by
  have hlset : (flipBit data p b).length = data.length := by
    unfold flipBit
    exact List.length_set data _ _
  rcases hpb with ⟨hp, hb⟩ | ⟨hp, hb⟩ | ⟨hp, hb⟩
  · subst hp
    unfold parseTC flipBit
    rw [if_pos hf, if_neg (by rw [List.length_set]; omega),
      getD_set_ne data 8 _ 7 (by omega), h71, if_neg (not_not_intro rfl),
      getD_set_self data 8 _ (by omega)]
    rcases hb with hb | hb <;> subst hb
    · rw [if_pos (flip_break_mask _ _ _ h8 (by decide) (by decide))]
    · rw [if_pos (flip_break_mask _ _ _ h8 (by decide) (by decide))]
  · subst hp
    subst hb
    unfold parseTC flipBit
    rw [if_pos hf, if_neg (by rw [List.length_set]; omega),
      getD_set_ne data 9 _ 7 (by omega), h71, if_neg (not_not_intro rfl),
      getD_set_ne data 9 _ 8 (by omega), if_neg (not_not_intro h8)]
    dsimp only
    rw [getD_set_self data 9 _ (by omega),
      if_pos (flip_break_mask _ _ _ h9 (by decide) (by decide))]
  · subst hp
    subst hb
    unfold parseTC flipBit
    rw [if_pos hf, if_neg (by rw [List.length_set]; omega),
      getD_set_ne data 11 _ 7 (by omega), h71, if_neg (not_not_intro rfl),
      getD_set_ne data 11 _ 8 (by omega), if_neg (not_not_intro h8)]
    dsimp only
    rw [getD_set_ne data 11 _ 9 (by omega), if_neg (not_not_intro h9)]
    rw [getD_set_self data 11 _ (by omega),
      if_pos (flip_break_zero _ _ _ h11 (by decide) (by decide))]

theorem parseCC_flip (data : List Nat) (flags : Flags) (idx b : Nat)
    (hf : flags.cc_data = true) (hlen : idx + 2 ≤ data.length)
    (h72 : data.getD idx 0 = 0x72) (hcb : data.getD (idx + 1) 0 &&& 0xe0 = 0xe0)
    (hb : b = 5 ∨ b = 6 ∨ b = 7) :
    parseCC (flipBit data (idx + 1) b) flags idx = .error .invalidFixedBits := by
  unfold parseCC flipBit
  rw [if_pos hf, if_neg (by rw [List.length_set]; omega),
    getD_set_ne data (idx + 1) _ idx (by omega), h72, if_neg (not_not_intro rfl),
    getD_set_self data (idx + 1) _ (by omega)]
  rcases hb with hb | hb | hb <;> subst hb
  · rw [if_pos (flip_break_mask _ _ _ hcb (by decide) (by decide))]
  · rw [if_pos (flip_break_mask _ _ _ hcb (by decide) (by decide))]
  · rw [if_pos (flip_break_mask _ _ _ hcb (by decide) (by decide))]

theorem entry_parse_inv (slice : List Nat) (entry : ServiceEntry)
    (h : ServiceEntry.parse slice = .ok entry) :
    slice.getD 3 0 &&& 0x40 = 0x40 ∧ slice.getD 4 0 &&& 0x3f = 0x3f ∧
    slice.getD 5 0 = 0xff ∧
    (slice.getD 3 0 &&& 0x80 = 0 → slice.getD 3 0 &&& 0x3e = 0x3e) ∧
    (slice.getD 3 0 &&& 0x80 ≠ 0 → slice.getD 3 0 &&& 0x3f ≠ 0) := by
  unfold ServiceEntry.parse at h
  dsimp only at h
  by_cases h40 : slice.getD 3 0 &&& 0x40 ≠ 0x40
  · rw [if_pos h40] at h
    cases h
  rw [if_neg h40] at h
  by_cases hdig : (slice.getD 3 0 &&& 0x80 != 0) = true
  · rw [if_pos hdig] at h
    by_cases hz : slice.getD 3 0 &&& 0x3f = 0
    · rw [if_pos hz] at h
      dsimp only at h
      cases h
    rw [if_neg hz] at h
    dsimp only at h
    by_cases h3f : slice.getD 4 0 &&& 0x3f ≠ 0x3f
    · rw [if_pos h3f] at h
      cases h
    rw [if_neg h3f] at h
    by_cases h5 : slice.getD 5 0 ≠ 0xff
    · rw [if_pos h5] at h
      cases h
    exact ⟨not_ne_iff.mp h40, not_ne_iff.mp h3f, not_ne_iff.mp h5,
      fun hc => absurd hc (by simpa using hdig), fun _ => hz⟩
  · rw [if_neg hdig] at h
    by_cases h3e : slice.getD 3 0 &&& 0x3e ≠ 0x3e
    · rw [if_pos h3e] at h
      dsimp only at h
      cases h
    rw [if_neg h3e] at h
    dsimp only at h
    by_cases h3f : slice.getD 4 0 &&& 0x3f ≠ 0x3f
    · rw [if_pos h3f] at h
      cases h
    rw [if_neg h3f] at h
    by_cases h5 : slice.getD 5 0 ≠ 0xff
    · rw [if_pos h5] at h
      cases h
    exact ⟨not_ne_iff.mp h40, not_ne_iff.mp h3f, not_ne_iff.mp h5,
      fun _ => not_ne_iff.mp h3e,
      fun hc => absurd (by simpa using hdig) hc⟩

theorem entry_parse_flip (slice : List Nat) (entry : ServiceEntry) (j b : Nat)
    (h : ServiceEntry.parse slice = .ok entry) (hlen : 6 ≤ slice.length)
    (hfix : (j = 3 ∧ b = 6) ∨ (j = 3 ∧ 1 ≤ b ∧ b ≤ 5 ∧ slice.getD 3 0 &&& 0x80 = 0) ∨
      (j = 4 ∧ b ≤ 5) ∨ (j = 5 ∧ b ≤ 7)) :
    ServiceEntry.parse (slice.set j (slice.getD j 0 ^^^ (1 <<< b))) =
      .error .invalidFixedBits := by
  obtain ⟨h40, h3f, h5ff, hfield, hdig⟩ := entry_parse_inv slice entry h
  rcases hfix with ⟨hj, hb⟩ | ⟨hj, hb1, hb5, h80⟩ | ⟨hj, hb⟩ | ⟨hj, hb⟩
  · subst hj
    subst hb
    unfold ServiceEntry.parse
    dsimp only
    rw [getD_set_self slice 3 _ (by omega),
      if_pos (flip_break_mask _ _ _ h40 (by decide) (by decide))]
  · subst hj
    have hf40 : (1 <<< b) &&& 0x40 = 0 := by interval_cases b <;> decide
    have hf80 : (1 <<< b) &&& 0x80 = 0 := by interval_cases b <;> decide
    have hf3e : (1 <<< b) &&& 0x3e = 1 <<< b := by interval_cases b <;> decide
    have hfne : (1 <<< b) ≠ 0 := by interval_cases b <;> decide
    unfold ServiceEntry.parse
    dsimp only
    rw [getD_set_self slice 3 _ (by omega),
      if_neg (show ¬((slice.getD 3 0 ^^^ 1 <<< b) &&& 0x40 ≠ 0x40) by
        rw [flip_keep_mask _ _ _ hf40]
        exact not_not_intro h40),
      flip_keep_mask _ _ _ hf80, h80]
    rw [if_neg (by decide : ¬((0 : Nat) != 0) = true)]
    rw [if_pos (flip_break_mask _ _ _ (hfield h80) hf3e hfne)]
  · subst hj
    have hf3f : (1 <<< b) &&& 0x3f = 1 <<< b := by interval_cases b <;> decide
    have hfne : (1 <<< b) ≠ 0 := by interval_cases b <;> decide
    unfold ServiceEntry.parse
    dsimp only
    rw [getD_set_ne slice 4 _ 3 (by omega), getD_set_self slice 4 _ (by omega)]
    rw [if_neg (not_not_intro h40)]
    by_cases hdigb : (slice.getD 3 0 &&& 0x80 != 0) = true
    · rw [if_pos hdigb, if_neg (hdig (by simpa using hdigb))]
      dsimp only
      rw [if_pos (flip_break_mask _ _ _ h3f hf3f hfne)]
    · rw [if_neg hdigb, if_neg (not_not_intro (hfield (by simpa using hdigb)))]
      dsimp only
      rw [if_pos (flip_break_mask _ _ _ h3f hf3f hfne)]
  · subst hj
    have hfne : (1 <<< b) ≠ 0 := by interval_cases b <;> decide
    unfold ServiceEntry.parse
    dsimp only
    rw [getD_set_ne slice 5 _ 3 (by omega), getD_set_ne slice 5 _ 4 (by omega),
      getD_set_self slice 5 _ (by omega), h5ff]
    rw [if_neg (not_not_intro h40)]
    by_cases hdigb : (slice.getD 3 0 &&& 0x80 != 0) = true
    · rw [if_pos hdigb, if_neg (hdig (by simpa using hdigb))]
      dsimp only
      rw [if_neg (not_not_intro h3f), if_pos (xor_ne_self 0xff (1 <<< b) hfne)]
    · rw [if_neg hdigb, if_neg (not_not_intro (hfield (by simpa using hdigb)))]
      dsimp only
      rw [if_neg (not_not_intro h3f), if_pos (xor_ne_self 0xff (1 <<< b) hfne)]

theorem parseSvcEntries_cons_inv (w : List Nat) (n : Nat) (l : List ServiceEntry)
    (h : parseSvcEntries w (n + 1) = .ok l) :
    w.getD 0 0 &&& 0x80 = 0x80 ∧
    ((w.getD 0 0 &&& 0x40 != 0) = true → w.getD 0 0 &&& 0x20 = 0x20) ∧
    ∃ entry sno rest,
      ServiceEntry.parse ((w.drop 1).take 6) = .ok entry ∧
      (if (w.getD 0 0 &&& 0x40 != 0) = true then w.getD 0 0 &&& 0x1f
       else w.getD 0 0 &&& 0x3f) = sno ∧
      (∀ d, entry.service = .Service d → d.service = sno) ∧
      (∀ f, entry.service = .Field f → sno = 0) ∧
      parseSvcEntries (w.drop 7) n = .ok rest ∧ l = entry :: rest := by
  unfold parseSvcEntries at h
  dsimp only at h
  split at h
  · cases h
  rename_i hb0
  by_cases hL : (w.getD 0 0 &&& 0x40 != 0) = true
  · rw [if_pos hL] at h
    by_cases h20 : w.getD 0 0 &&& 0x20 ≠ 0x20
    · rw [if_pos h20] at h
      dsimp only at h
      cases h
    rw [if_neg h20] at h
    dsimp only at h
    cases hE : ServiceEntry.parse ((w.drop 1).take 6) with
    | error err =>
      rw [hE] at h
      dsimp only at h
      cases h
    | ok entry =>
      rw [hE] at h
      dsimp only at h
      cases hES : entry.service with
      | Field f =>
        rw [hES] at h
        dsimp only at h
        by_cases hz : (w.getD 0 0 &&& 0x1f) ≠ 0
        · rw [if_pos hz] at h
          dsimp only at h
          cases h
        rw [if_neg hz] at h
        dsimp only at h
        cases hR : parseSvcEntries (w.drop 7) n with
        | error err =>
          rw [hR] at h
          dsimp only at h
          cases h
        | ok rest =>
          rw [hR] at h
          dsimp only at h
          refine ⟨not_ne_iff.mp hb0, fun _ => not_ne_iff.mp h20,
            entry, w.getD 0 0 &&& 0x1f, rest, rfl, if_pos hL, ?_, ?_, rfl, ?_⟩
          · intro d hd
            rw [hES] at hd
            cases hd
          · intro f2 hf2
            exact not_ne_iff.mp hz
          · exact (Except.ok.inj h).symm
      | Service d =>
        rw [hES] at h
        dsimp only at h
        by_cases hz : d.service ≠ (w.getD 0 0 &&& 0x1f)
        · rw [if_pos hz] at h
          dsimp only at h
          cases h
        rw [if_neg hz] at h
        dsimp only at h
        cases hR : parseSvcEntries (w.drop 7) n with
        | error err =>
          rw [hR] at h
          dsimp only at h
          cases h
        | ok rest =>
          rw [hR] at h
          dsimp only at h
          refine ⟨not_ne_iff.mp hb0, fun _ => not_ne_iff.mp h20,
            entry, w.getD 0 0 &&& 0x1f, rest, rfl, if_pos hL, ?_, ?_, rfl, ?_⟩
          · intro d2 hd2
            rw [hES] at hd2
            cases hd2
            exact not_ne_iff.mp hz
          · intro f2 hf2
            rw [hES] at hf2
            cases hf2
          · exact (Except.ok.inj h).symm
  · rw [if_neg hL] at h
    dsimp only at h
    cases hE : ServiceEntry.parse ((w.drop 1).take 6) with
    | error err =>
      rw [hE] at h
      dsimp only at h
      cases h
    | ok entry =>
      rw [hE] at h
      dsimp only at h
      cases hES : entry.service with
      | Field f =>
        rw [hES] at h
        dsimp only at h
        by_cases hz : (w.getD 0 0 &&& 0x3f) ≠ 0
        · rw [if_pos hz] at h
          dsimp only at h
          cases h
        rw [if_neg hz] at h
        dsimp only at h
        cases hR : parseSvcEntries (w.drop 7) n with
        | error err =>
          rw [hR] at h
          dsimp only at h
          cases h
        | ok rest =>
          rw [hR] at h
          dsimp only at h
          refine ⟨not_ne_iff.mp hb0, fun hLt => absurd hLt hL,
            entry, w.getD 0 0 &&& 0x3f, rest, rfl, if_neg hL, ?_, ?_, rfl, ?_⟩
          · intro d hd
            rw [hES] at hd
            cases hd
          · intro f2 hf2
            exact not_ne_iff.mp hz
          · exact (Except.ok.inj h).symm
      | Service d =>
        rw [hES] at h
        dsimp only at h
        by_cases hz : d.service ≠ (w.getD 0 0 &&& 0x3f)
        · rw [if_pos hz] at h
          dsimp only at h
          cases h
        rw [if_neg hz] at h
        dsimp only at h
        cases hR : parseSvcEntries (w.drop 7) n with
        | error err =>
          rw [hR] at h
          dsimp only at h
          cases h
        | ok rest =>
          rw [hR] at h
          dsimp only at h
          refine ⟨not_ne_iff.mp hb0, fun hLt => absurd hLt hL,
            entry, w.getD 0 0 &&& 0x3f, rest, rfl, if_neg hL, ?_, ?_, rfl, ?_⟩
          · intro d2 hd2
            rw [hES] at hd2
            cases hd2
            exact not_ne_iff.mp hz
          · intro f2 hf2
            rw [hES] at hf2
            cases hf2
          · exact (Except.ok.inj h).symm

theorem parseSvcEntries_flip_first (w : List Nat) (n : Nat) (l : List ServiceEntry)
    (q b : Nat) (h : parseSvcEntries w (n + 1) = .ok l) (hwlen : 7 ≤ w.length)
    (hq4 : 4 ≤ q) (hq6 : q ≤ 6)
    (hfixE : (q - 1 = 3 ∧ b = 6) ∨
      (q - 1 = 3 ∧ 1 ≤ b ∧ b ≤ 5 ∧ ((w.drop 1).take 6).getD 3 0 &&& 0x80 = 0) ∨
      (q - 1 = 4 ∧ b ≤ 5) ∨ (q - 1 = 5 ∧ b ≤ 7)) :
    parseSvcEntries (w.set q (w.getD q 0 ^^^ (1 <<< b))) (n + 1) =
      .error .invalidFixedBits := by
  obtain ⟨hb0, h20, entry, sno, rest, hE, hsno, hdS, hdF, hR, hl⟩ :=
    parseSvcEntries_cons_inv w n l h
  have hslice : ((w.set q (w.getD q 0 ^^^ (1 <<< b))).drop 1).take 6 =
      ((w.drop 1).take 6).set (q - 1)
        (((w.drop 1).take 6).getD (q - 1) 0 ^^^ (1 <<< b)) := by
    rw [drop_take_set_inside w q _ 1 6 (by omega) (by omega)]
    have hv : ((w.drop 1).take 6).getD (q - 1) 0 = w.getD q 0 := by
      rw [getD_take _ _ _ (by omega : q - 1 < 6), getD_drop,
        show 1 + (q - 1) = q from by omega]
    rw [hv]
  have hlen6 : 6 ≤ ((w.drop 1).take 6).length := by
    rw [List.length_take, List.length_drop]
    omega
  have hflip := entry_parse_flip ((w.drop 1).take 6) entry (q - 1) b hE hlen6 hfixE
  unfold parseSvcEntries
  dsimp only
  rw [getD_set_ne w q _ 0 (by omega), if_neg (not_not_intro hb0)]
  by_cases hL : (w.getD 0 0 &&& 0x40 != 0) = true
  · rw [if_pos hL, if_neg (not_not_intro (h20 hL))]
    dsimp only
    rw [hslice, hflip]
  · rw [if_neg hL]
    dsimp only
    rw [hslice, hflip]

theorem parseSvcEntries_flip_rest (w : List Nat) (n : Nat) (l : List ServiceEntry)
    (q b : Nat) (h : parseSvcEntries w (n + 1) = .ok l) (hq : 7 ≤ q)
    (hrec : parseSvcEntries
        ((w.drop 7).set (q - 7) ((w.drop 7).getD (q - 7) 0 ^^^ (1 <<< b))) n =
      .error .invalidFixedBits) :
    parseSvcEntries (w.set q (w.getD q 0 ^^^ (1 <<< b))) (n + 1) =
      .error .invalidFixedBits := by
  obtain ⟨hb0, h20, entry, sno, rest, hE, hsno, hdS, hdF, hR, hl⟩ :=
    parseSvcEntries_cons_inv w n l h
  have hslice : ((w.set q (w.getD q 0 ^^^ (1 <<< b))).drop 1).take 6 =
      (w.drop 1).take 6 :=
    drop_take_set_outside w q _ 1 6 (Or.inr (by omega))
  have hdrop7 : (w.set q (w.getD q 0 ^^^ (1 <<< b))).drop 7 =
      (w.drop 7).set (q - 7) ((w.drop 7).getD (q - 7) 0 ^^^ (1 <<< b)) := by
    rw [set_drop_comm w q _ 7 hq,
      show w.getD q 0 = (w.drop 7).getD (q - 7) 0 from by
        rw [getD_drop, show 7 + (q - 7) = q from by omega]]
  unfold parseSvcEntries
  dsimp only
  rw [getD_set_ne w q _ 0 (by omega), if_neg (not_not_intro hb0)]
  by_cases hL : (w.getD 0 0 &&& 0x40 != 0) = true
  · rw [if_pos hL, if_neg (not_not_intro (h20 hL))]
    dsimp only
    rw [hslice, hE]
    dsimp only
    have hs1 : w.getD 0 0 &&& 0x1f = sno := by rw [← hsno, if_pos hL]
    cases hES : entry.service with
    | Service d =>
      dsimp only
      rw [if_neg (not_not_intro (by rw [hdS d hES, ← hs1] :
        d.service = w.getD 0 0 &&& 0x1f))]
      dsimp only
      rw [hdrop7, hrec]
    | Field f =>
      dsimp only
      rw [if_neg (not_not_intro (hs1.trans (hdF f hES)))]
      dsimp only
      rw [hdrop7, hrec]
  · rw [if_neg hL]
    dsimp only
    rw [hslice, hE]
    dsimp only
    have hs1 : w.getD 0 0 &&& 0x3f = sno := by rw [← hsno, if_neg hL]
    cases hES : entry.service with
    | Service d =>
      dsimp only
      rw [if_neg (not_not_intro (by rw [hdS d hES, ← hs1] :
        d.service = w.getD 0 0 &&& 0x3f))]
      dsimp only
      rw [hdrop7, hrec]
    | Field f =>
      dsimp only
      rw [if_neg (not_not_intro (hs1.trans (hdF f hES)))]
      dsimp only
      rw [hdrop7, hrec]

theorem parseSvcEntries_flip (e : Nat) :
    ∀ (w : List Nat) (count : Nat) (l : List ServiceEntry) (q b : Nat),
    parseSvcEntries w count = .ok l → w.length = 7 * count → e < count →
    svcEntryFixedBit w (7 * e) q b →
    parseSvcEntries (w.set q (w.getD q 0 ^^^ (1 <<< b))) count =
      .error .invalidFixedBits := by
  induction e with
  | zero =>
    intro w count l q b h hwlen he hfix
    cases count with
    | zero => omega
    | succ n =>
      unfold svcEntryFixedBit at hfix
      simp only [Nat.mul_zero, Nat.zero_add] at hfix
      obtain ⟨hb0, h20, entry, sno, rest, hE, hsno, hdS, hdF, hR, hl⟩ :=
        parseSvcEntries_cons_inv w n l h
      rcases hfix with ⟨hq, hb⟩ | ⟨hq, hb, hcond⟩ | ⟨hq, hb⟩ | ⟨hq, hb1, hb5, hcond⟩ |
        ⟨hq, hb⟩ | ⟨hq, hb⟩
      · subst hq
        subst hb
        unfold parseSvcEntries
        dsimp only
        rw [getD_set_self w 0 _ (by omega),
          if_pos (flip_break_mask _ _ _ hb0 (by decide) (by decide))]
      · subst hq
        subst hb
        have hLtrue : (w.getD 0 0 &&& 0x40 != 0) = true := by simpa using hcond
        unfold parseSvcEntries
        dsimp only
        rw [getD_set_self w 0 _ (by omega)]
        rw [if_neg (show ¬((w.getD 0 0 ^^^ 1 <<< 5) &&& 0x80 ≠ 0x80) by
          rw [flip_keep_mask _ _ _ (by decide)]
          exact not_not_intro hb0)]
        rw [if_pos (show ((w.getD 0 0 ^^^ 1 <<< 5) &&& 0x40 != 0) = true by
          rw [flip_keep_mask _ _ _ (by decide)]
          exact hLtrue)]
        rw [if_pos (flip_break_mask _ _ _ (h20 hLtrue) (by decide) (by decide))]
      · subst hq
        exact parseSvcEntries_flip_first w n l 4 b h (by omega) (by omega) (by omega)
          (Or.inl ⟨by omega, hb⟩)
      · subst hq
        refine parseSvcEntries_flip_first w n l 4 b h (by omega) (by omega) (by omega)
          (Or.inr (Or.inl ⟨by omega, hb1, hb5, ?_⟩))
        rw [getD_take _ _ _ (by omega : (3 : Nat) < 6), getD_drop]
        exact hcond
      · subst hq
        exact parseSvcEntries_flip_first w n l 5 b h (by omega) (by omega) (by omega)
          (Or.inr (Or.inr (Or.inl ⟨by omega, hb⟩)))
      · subst hq
        exact parseSvcEntries_flip_first w n l 6 b h (by omega) (by omega) (by omega)
          (Or.inr (Or.inr (Or.inr ⟨by omega, hb⟩)))
  | succ e ih =>
    intro w count l q b h hwlen he hfix
    cases count with
    | zero => omega
    | succ n =>
      unfold svcEntryFixedBit at hfix
      have hq7 : 7 ≤ q := by
        rcases hfix with ⟨h1, _⟩ | ⟨h1, _, _⟩ | ⟨h1, _⟩ | ⟨h1, _, _, _⟩ | ⟨h1, _⟩ |
          ⟨h1, _⟩ <;> omega
      obtain ⟨hb0, h20, entry, sno, rest, hE, hsno, hdS, hdF, hR, hl⟩ :=
        parseSvcEntries_cons_inv w n l h
      have hg0 : (w.drop 7).getD (7 * e) 0 = w.getD (7 * (e + 1)) 0 := by
        rw [getD_drop, show 7 + 7 * e = 7 * (e + 1) from by omega]
      have hg4 : (w.drop 7).getD (7 * e + 4) 0 = w.getD (7 * (e + 1) + 4) 0 := by
        rw [getD_drop, show 7 + (7 * e + 4) = 7 * (e + 1) + 4 from by omega]
      have hfix2 : svcEntryFixedBit (w.drop 7) (7 * e) (q - 7) b := by
        unfold svcEntryFixedBit
        rcases hfix with ⟨h1, h2⟩ | ⟨h1, h2, h3⟩ | ⟨h1, h2⟩ | ⟨h1, h2, h3, h4⟩ |
          ⟨h1, h2⟩ | ⟨h1, h2⟩
        · exact Or.inl ⟨by omega, h2⟩
        · exact Or.inr (Or.inl ⟨by omega, h2, by rw [hg0]; exact h3⟩)
        · exact Or.inr (Or.inr (Or.inl ⟨by omega, h2⟩))
        · exact Or.inr (Or.inr (Or.inr (Or.inl ⟨by omega, h2, h3, by rw [hg4]; exact h4⟩)))
        · exact Or.inr (Or.inr (Or.inr (Or.inr (Or.inl ⟨by omega, h2⟩))))
        · exact Or.inr (Or.inr (Or.inr (Or.inr (Or.inr ⟨by omega, h2⟩))))
      exact parseSvcEntries_flip_rest w n l q b h hq7
        (ih (w.drop 7) n rest (q - 7) b hR (by rw [List.length_drop]; omega) (by omega)
          hfix2)

theorem svcInfo_parse_flip (sl : List Nat) (si : ServiceInfo) (q b : Nat)
    (h : ServiceInfo.parse sl = .ok si)
    (hfix : (q = 1 ∧ b = 7) ∨
      (∃ e, e < sl.getD 1 0 &&& 0x0f ∧ svcEntryFixedBit sl (2 + 7 * e) q b)) :
    ServiceInfo.parse (sl.set q (sl.getD q 0 ^^^ (1 <<< b))) =
      .error .invalidFixedBits := by
  unfold ServiceInfo.parse at h
  dsimp only at h
  split at h
  · cases h
  rename_i hl2
  split at h
  · cases h
  rename_i hm
  split at h
  · cases h
  rename_i h80
  split at h
  · cases h
  rename_i hle
  have hlen : sl.length = (sl.getD 1 0 &&& 0xf) * 7 + 2 := not_ne_iff.mp hle
  rcases hfix with ⟨hq, hb⟩ | ⟨e, he, hfixE⟩
  · subst hq
    subst hb
    unfold ServiceInfo.parse
    dsimp only
    rw [getD_set_ne sl 1 _ 0 (by omega), getD_set_self sl 1 _ (by omega),
      if_neg (by rw [List.length_set]; omega), if_neg hm,
      if_pos (flip_break_mask _ _ _ (not_ne_iff.mp h80) (by decide) (by decide))]
  · have hq2 : 2 ≤ q := by
      unfold svcEntryFixedBit at hfixE
      rcases hfixE with ⟨h1, _⟩ | ⟨h1, _, _⟩ | ⟨h1, _⟩ | ⟨h1, _, _, _⟩ | ⟨h1, _⟩ |
        ⟨h1, _⟩ <;> omega
    cases hR : parseSvcEntries (sl.drop 2) (sl.getD 1 0 &&& 0xf) with
    | error err =>
      rw [hR] at h
      dsimp only at h
      cases h
    | ok svcs =>
      have hfix2 : svcEntryFixedBit (sl.drop 2) (7 * e) (q - 2) b := by
        unfold svcEntryFixedBit at hfixE ⊢
        rcases hfixE with ⟨h1, h2⟩ | ⟨h1, h2, h3⟩ | ⟨h1, h2⟩ | ⟨h1, h2, h3, h4⟩ |
          ⟨h1, h2⟩ | ⟨h1, h2⟩
        · exact Or.inl ⟨by omega, h2⟩
        · refine Or.inr (Or.inl ⟨by omega, h2, ?_⟩)
          rw [getD_drop]
          exact h3
        · exact Or.inr (Or.inr (Or.inl ⟨by omega, h2⟩))
        · refine Or.inr (Or.inr (Or.inr (Or.inl ⟨by omega, h2, h3, ?_⟩)))
          rw [getD_drop, show 2 + (7 * e + 4) = 2 + 7 * e + 4 from by omega]
          exact h4
        · exact Or.inr (Or.inr (Or.inr (Or.inr (Or.inl ⟨by omega, h2⟩))))
        · exact Or.inr (Or.inr (Or.inr (Or.inr (Or.inr ⟨by omega, h2⟩))))
      unfold ServiceInfo.parse
      dsimp only
      rw [getD_set_ne sl q _ 0 (by omega), getD_set_ne sl q _ 1 (by omega),
        if_neg (by rw [List.length_set]; omega), if_neg hm, if_neg h80,
        if_neg (by rw [List.length_set]; omega),
        set_drop_comm sl q _ 2 hq2,
        show sl.getD q 0 = (sl.drop 2).getD (q - 2) 0 from by
          rw [getD_drop, show 2 + (q - 2) = q from by omega],
        parseSvcEntries_flip e (sl.drop 2) (sl.getD 1 0 &&& 0xf) svcs (q - 2) b hR
          (by rw [List.length_drop]; omega) he hfix2]

theorem parseSvcSection_flip (data : List Nat) (flags : Flags) (idx p b : Nat)
    (si? : Option ServiceInfo) (i3 : Nat)
    (h : parseSvcSection data flags idx = .ok (si?, i3)) (hflag : flags.svc_info = true)
    (hfix : (p = idx + 1 ∧ b = 7) ∨
      (∃ e, e < data.getD (idx + 1) 0 &&& 0x0f ∧
        svcEntryFixedBit data (idx + 2 + 7 * e) p b)) :
    parseSvcSection (flipBit data p b) flags idx = .error .invalidFixedBits := by
  rcases parseSvc_inv data flags idx si? i3 h with ⟨hf, _, _⟩ |
    ⟨_, hi3, hle, h73, si, hsi, _, _, _, _⟩
  · rw [hflag] at hf
    cases hf
  have hpu : p < idx + (2 + 7 * (data.getD (idx + 1) 0 &&& 0x0f)) := by
    rcases hfix with ⟨h1, _⟩ | ⟨e, he, hfixE⟩
    · omega
    · unfold svcEntryFixedBit at hfixE
      rcases hfixE with ⟨h1, _⟩ | ⟨h1, _, _⟩ | ⟨h1, _⟩ | ⟨h1, _, _, _⟩ | ⟨h1, _⟩ |
        ⟨h1, _⟩ <;> omega
  have hp1 : idx + 1 ≤ p := by
    rcases hfix with ⟨h1, _⟩ | ⟨e, he, hfixE⟩
    · omega
    · unfold svcEntryFixedBit at hfixE
      rcases hfixE with ⟨h1, _⟩ | ⟨h1, _, _⟩ | ⟨h1, _⟩ | ⟨h1, _, _, _⟩ | ⟨h1, _⟩ |
        ⟨h1, _⟩ <;> omega
  unfold parseSvcSection flipBit
  rw [if_pos hflag, if_neg (by rw [List.length_set]; omega),
    getD_set_ne data p _ idx (by omega), h73, if_neg (not_not_intro rfl)]
  dsimp only
  rcases hfix with ⟨hp, hb⟩ | ⟨e, he, hfixE⟩
  · subst hp
    subst hb
    rw [getD_set_self data (idx + 1) _ (by omega),
      flip_keep_mask _ _ _ (by decide : (1 <<< 7 : Nat) &&& 0xf = 0),
      if_neg (by rw [List.length_set]; omega),
      drop_take_set_inside data (idx + 1) _ idx
        (2 + 7 * (data.getD (idx + 1) 0 &&& 0xf)) (by omega) (by omega),
      show idx + 1 - idx = 1 from by omega]
    have hsl1 : ((data.drop idx).take (2 + 7 * (data.getD (idx + 1) 0 &&& 0xf))).getD 1 0 =
        data.getD (idx + 1) 0 := by
      rw [getD_take _ _ _ (by omega), getD_drop]
    have hvrw : ((data.drop idx).take (2 + 7 * (data.getD (idx + 1) 0 &&& 0xf))).set 1
          (data.getD (idx + 1) 0 ^^^ 1 <<< 7) =
        ((data.drop idx).take (2 + 7 * (data.getD (idx + 1) 0 &&& 0xf))).set 1
          (((data.drop idx).take (2 + 7 * (data.getD (idx + 1) 0 &&& 0xf))).getD 1 0 ^^^
            1 <<< 7) := by
      rw [hsl1]
    rw [hvrw, svcInfo_parse_flip _ si 1 7 hsi (Or.inl ⟨rfl, rfl⟩)]
  · have hp2 : idx + 2 ≤ p := by
      unfold svcEntryFixedBit at hfixE
      rcases hfixE with ⟨h1, _⟩ | ⟨h1, _, _⟩ | ⟨h1, _⟩ | ⟨h1, _, _, _⟩ | ⟨h1, _⟩ |
        ⟨h1, _⟩ <;> omega
    rw [getD_set_ne data p _ (idx + 1) (by omega),
      if_neg (by rw [List.length_set]; omega),
      drop_take_set_inside data p _ idx
        (2 + 7 * (data.getD (idx + 1) 0 &&& 0xf)) (by omega) (by omega)]
    have hslg : ((data.drop idx).take (2 + 7 * (data.getD (idx + 1) 0 &&& 0xf))).getD
          (p - idx) 0 = data.getD p 0 := by
      rw [getD_take _ _ _ (by omega), getD_drop, show idx + (p - idx) = p from by omega]
    have hvrw : ((data.drop idx).take (2 + 7 * (data.getD (idx + 1) 0 &&& 0xf))).set
          (p - idx) (data.getD p 0 ^^^ 1 <<< b) =
        ((data.drop idx).take (2 + 7 * (data.getD (idx + 1) 0 &&& 0xf))).set (p - idx)
          (((data.drop idx).take
            (2 + 7 * (data.getD (idx + 1) 0 &&& 0xf))).getD (p - idx) 0 ^^^ 1 <<< b) := by
      rw [hslg]
    have hcnt1 : ((data.drop idx).take (2 + 7 * (data.getD (idx + 1) 0 &&& 0xf))).getD 1 0 =
        data.getD (idx + 1) 0 := by
      rw [getD_take _ _ _ (by omega), getD_drop]
    have hfix2 : svcEntryFixedBit
        ((data.drop idx).take (2 + 7 * (data.getD (idx + 1) 0 &&& 0xf)))
        (2 + 7 * e) (p - idx) b := by
      have hgbase : ((data.drop idx).take (2 + 7 * (data.getD (idx + 1) 0 &&& 0xf))).getD
            (2 + 7 * e) 0 = data.getD (idx + 2 + 7 * e) 0 := by
        rw [getD_take _ _ _ (by omega), getD_drop, show idx + (2 + 7 * e) = idx + 2 + 7 * e
          from by omega]
      have hgbase4 : ((data.drop idx).take
            (2 + 7 * (data.getD (idx + 1) 0 &&& 0xf))).getD (2 + 7 * e + 4) 0 =
          data.getD (idx + 2 + 7 * e + 4) 0 := by
        rw [getD_take _ _ _ (by omega), getD_drop,
          show idx + (2 + 7 * e + 4) = idx + 2 + 7 * e + 4 from by omega]
      unfold svcEntryFixedBit at hfixE ⊢
      rcases hfixE with ⟨h1, h2⟩ | ⟨h1, h2, h3⟩ | ⟨h1, h2⟩ | ⟨h1, h2, h3, h4⟩ |
        ⟨h1, h2⟩ | ⟨h1, h2⟩
      · exact Or.inl ⟨by omega, h2⟩
      · refine Or.inr (Or.inl ⟨by omega, h2, ?_⟩)
        rw [hgbase]
        exact h3
      · exact Or.inr (Or.inr (Or.inl ⟨by omega, h2⟩))
      · refine Or.inr (Or.inr (Or.inr (Or.inl ⟨by omega, h2, h3, ?_⟩)))
        rw [hgbase4]
        exact h4
      · exact Or.inr (Or.inr (Or.inr (Or.inr (Or.inl ⟨by omega, h2⟩))))
      · exact Or.inr (Or.inr (Or.inr (Or.inr (Or.inr ⟨by omega, h2⟩))))
    rw [hvrw, svcInfo_parse_flip _ si (p - idx) b hsi
      (Or.inr ⟨e, by rw [hcnt1]; exact he, hfix2⟩)]

theorem flipBit_length (data : List Nat) (p b : Nat) :
    (flipBit data p b).length = data.length := by
  unfold flipBit
  exact List.length_set data _ _

theorem flipBit_getD_ne (data : List Nat) (p b i : Nat) (h : i ≠ p) :
    (flipBit data p b).getD i 0 = data.getD i 0 := by
  unfold flipBit
  exact getD_set_ne data p _ i h

theorem flipBit_getElem_ne (data : List Nat) (p b j : Nat) (h : j ≠ p) :
    (flipBit data p b)[j]? = data[j]? := by
  unfold flipBit
  exact List.getElem?_set_ne (by omega : p ≠ j)

/-- C4 refuted as stated: `minimalPacket` is accepted; flipping the
documented reserved low-nibble bit 0 of the framerate byte produces
`ChecksumFailed` rather than `InvalidFixedBits`, and flipping the flags
byte's reserved bit 0 with the checksum byte corrected (`c4AdjPacket`)
is silently accepted, because `CDPParser::parse` never validates either
of those documented reserved fields. -/
theorem C4_counterexample :
    CDPParser.parseCore minimalPacket = .ok c4MinResult ∧
    CDPParser.parseCore (flipBit minimalPacket 3 0) = .error .checksumFailed ∧
    c4AdjPacket = (flipBit minimalPacket 4 0).set 10 0x43 ∧
    CDPParser.parseCore c4AdjPacket = .ok c4AdjResult :=
  ⟨by decide, by decide, by decide, by decide⟩

/-- C4 amended: for every accepted packet, flipping any single fixed bit
that `CDPParser::parse` actually validates (the time-code fixed bits in
bytes 8, 9 and 11, the cc-count byte's top three bits, the service-info
header fixed bit, and the per-entry fixed bits of each service
descriptor) makes parse fail with `InvalidFixedBits`; the framerate
byte's reserved nibble and the flags byte's reserved bit are not
validated (see `C4_counterexample`). -/
theorem C4_fixed_bit_amended (data : List Nat) (r : ParseOk) (p b : Nat)
    (h : CDPParser.parseCore data = .ok r) (hfix : fixedBitPos data r p b) :
    CDPParser.parseCore (flipBit data p b) = .error .invalidFixedBits := by
  obtain ⟨hlen11, h0, h1, hlen2, hfr, hflags, hseq, hTC, hCC, hSVC, hpre, hFL, hPF, hCK⟩ :=
    parseCore_ok_inv data r h
  have hTCinv := parseTC_inv data r.flags r.time_code r.ccIdx hTC
  have hCCinv := parseCC_inv data r.flags r.ccIdx r.ccBuf r.svcIdx hCC
  have hcc7 : 7 ≤ r.ccIdx := by
    rcases hTCinv with ⟨_, _, h7⟩ | ⟨_, h12, _⟩ <;> omega
  have hccsvc : r.ccIdx ≤ r.svcIdx := by
    rcases hCCinv with ⟨_, _, he⟩ | ⟨_, he, _⟩ <;> omega
  have hp7 : 7 ≤ p := by
    rcases hfix with ⟨_, hp⟩ | ⟨_, hp, _⟩ | ⟨_, hp⟩
    · rcases hp with ⟨hq, _⟩ | ⟨hq, _⟩ | ⟨hq, _⟩ <;> omega
    · omega
    · rcases hp with ⟨hq, _⟩ | ⟨e, _, hE⟩
      · omega
      · unfold svcEntryFixedBit at hE
        rcases hE with ⟨hq, _⟩ | ⟨hq, _, _⟩ | ⟨hq, _⟩ | ⟨hq, _, _, _⟩ | ⟨hq, _⟩ |
          ⟨hq, _⟩ <;> omega
  unfold CDPParser.parseCore
  dsimp only
  rw [if_neg (by rw [flipBit_length]; omega),
    flipBit_getD_ne data p b 0 (by omega), flipBit_getD_ne data p b 1 (by omega),
    if_neg (not_not_intro ⟨h0, h1⟩), flipBit_getD_ne data p b 2 (by omega),
    flipBit_length data p b, if_neg (not_not_intro hlen2),
    flipBit_getD_ne data p b 3 (by omega), hfr]
  dsimp only
  rw [flipBit_getD_ne data p b 4 (by omega), ← hflags]
  rcases hfix with ⟨hft, hp⟩ | ⟨hfc, hp, hb⟩ | ⟨hfs, hp⟩
  · rcases hTCinv with ⟨hf0, _, _⟩ | ⟨_, hcc12, hlen12, h71, h8m, h9m, h11m⟩
    · rw [hft] at hf0
      cases hf0
    rw [parseTC_flip data r.flags p b hft hlen12 h71 h8m h9m h11m hp]
  · subst hp
    rcases hCCinv with ⟨hf0, _, _⟩ | ⟨_, hsvcIdx, hsle, h72, hccfb, hbuf⟩
    · rw [hfc] at hf0
      cases hf0
    have hTCok : parseTC (flipBit data (r.ccIdx + 1) b) r.flags =
        .ok (r.time_code, r.ccIdx) := by
      rcases hTCinv with ⟨hf0, htcnone, hcc7e⟩ | ⟨hf1, hcc12, hlen12, _, _, _, _⟩
      · unfold parseTC
        rw [if_neg (by simp [hf0]), htcnone, hcc7e]
      · exact parseTC_mono data _ r.flags (r.time_code, r.ccIdx) hTC
          (by rw [flipBit_length])
          (fun j hj1 hj2 => flipBit_getD_ne data (r.ccIdx + 1) b j (by omega))
    rw [hTCok]
    dsimp only
    rw [parseCC_flip data r.flags r.ccIdx b hfc (by omega) h72 hccfb hb]
  · have hp1 : r.svcIdx + 1 ≤ p := by
      rcases hp with ⟨hq, _⟩ | ⟨e, _, hE⟩
      · omega
      · unfold svcEntryFixedBit at hE
        rcases hE with ⟨hq, _⟩ | ⟨hq, _, _⟩ | ⟨hq, _⟩ | ⟨hq, _, _, _⟩ | ⟨hq, _⟩ |
          ⟨hq, _⟩ <;> omega
    have hTCok : parseTC (flipBit data p b) r.flags = .ok (r.time_code, r.ccIdx) := by
      rcases hTCinv with ⟨hf0, htcnone, hcc7e⟩ | ⟨hf1, hcc12, hlen12, _, _, _, _⟩
      · unfold parseTC
        rw [if_neg (by simp [hf0]), htcnone, hcc7e]
      · exact parseTC_mono data _ r.flags (r.time_code, r.ccIdx) hTC
          (by rw [flipBit_length])
          (fun j hj1 hj2 => flipBit_getD_ne data p b j (by omega))
    have hCCok : parseCC (flipBit data p b) r.flags r.ccIdx =
        .ok (r.ccBuf, r.svcIdx) := by
      rcases hCCinv with ⟨hf0, hbufnone, hsvceq⟩ | ⟨hf1, hsvcIdx, hsle, _, _, _⟩
      · rw [hbufnone, hsvceq]
        unfold parseCC
        rw [if_neg (by simp [hf0])]
      · exact parseCC_mono data _ r.flags r.ccIdx (r.ccBuf, r.svcIdx) hCC
          (by rw [flipBit_length])
          (fun j hj1 hj2 => flipBit_getElem_ne data p b j (by omega))
    rw [hTCok]
    dsimp only
    rw [hCCok]
    dsimp only
    rw [parseSvcSection_flip data r.flags r.svcIdx p b r.service_info r.svcEnd hSVC
      hfs hp]

theorem C4_fixed_bit_amended_witness :
    CDPParser.parseCore (flipBit c4WitnessPacket 8 6) = .error .invalidFixedBits :=
  C4_fixed_bit_amended c4WitnessPacket c4WitnessResult 8 6 (by decide)
    (Or.inl ⟨by decide, Or.inl ⟨rfl, Or.inl rfl⟩⟩)

theorem futureLoopN_insert (data dB : List Nat) (fI : Nat)
    (hlen : dB.length = data.length + 4) (hfI4 : fI + 4 ≤ data.length)
    (hg : ∀ j, 7 ≤ j → j < fI → dB.getD j 0 = data.getD j 0)
    (h75 : dB.getD fI 0 = 0x75) (h2 : dB.getD (fI + 1) 0 = 2)
    (h74 : dB.getD (fI + 4) 0 = 0x74) :
    ∀ fuel idx, 7 ≤ idx → futureLoopN data fuel idx = .ok fI →
      futureLoop dB idx = .ok (fI + 4) := by
  intro fuel
  induction fuel with
  | zero =>
    intro idx hidx7 h
    rw [futureLoopN] at h
    cases h
  | succ f ih =>
    intro idx hidx7 h
    rw [futureLoopN] at h
    by_cases h74o : data.getD idx 0 = 0x74
    · rw [if_pos h74o] at h
      have hidx : idx = fI := Except.ok.inj h
      subst hidx
      have hF : futureLoop dB idx = futureLoopN dB ((dB.length - 1) + 1) idx := by
        rw [futureLoop]
        congr 1
        omega
      rw [hF, futureLoopN,
        if_neg (show ¬dB.getD idx 0 = 0x74 by rw [h75]; decide),
        if_neg (show ¬(dB.getD idx 0 < 0x75 ∨ 0xEF < dB.getD idx 0) by
          rw [h75]; decide)]
      dsimp only
      rw [h2, if_neg (by omega : ¬dB.length < idx + 1 + 2),
        if_neg (by omega : ¬dB.length < idx + 2 + 2 + 2),
        show idx + 2 + 2 = idx + 4 from by omega]
      have hF2 : futureLoopN dB (dB.length - 1) (idx + 4) =
          futureLoopN dB ((dB.length - 2) + 1) (idx + 4) := by
        congr 1
        omega
      rw [hF2, futureLoopN, h74, if_pos rfl]
    · rw [if_neg h74o] at h
      by_cases hrange : data.getD idx 0 < 0x75 ∨ 0xEF < data.getD idx 0
      · rw [if_pos hrange] at h
        cases h
      rw [if_neg hrange] at h
      dsimp only at h
      split at h
      · cases h
      rename_i hl1
      split at h
      · cases h
      rename_i hl2
      have hle := (futureLoopN_inv data f _ fI h).1
      have hF : futureLoop dB idx = futureLoopN dB ((dB.length - 1) + 1) idx := by
        rw [futureLoop]
        congr 1
        omega
      rw [hF, futureLoopN, hg idx (by omega) (by omega),
        hg (idx + 1) (by omega) (by omega), if_neg h74o, if_neg hrange]
      dsimp only
      rw [if_neg (by omega : ¬dB.length < idx + 1 + data.getD (idx + 1) 0),
        if_neg (by omega : ¬dB.length < idx + 2 + data.getD (idx + 1) 0 + 2)]
      have hrec := ih (idx + 2 + data.getD (idx + 1) 0) (by omega) h
      rw [futureLoop] at hrec
      rw [futureLoopN_fuel dB (dB.length - 1) dB.length _ (by omega) (by omega)]
      exact hrec

theorem insertFuture_decomp (data : List Nat) (fI x y : Nat) (h4 : fI + 4 = data.length) :
    insertFuture data fI x y =
      ((data.set 2 (data.getD 2 0 + 4)).take fI ++ [0x75, 0x02, x, y] ++
        ((data.set 2 (data.getD 2 0 + 4)).drop fI).take 3) ++
      [negByte (wrapSum ((data.set 2 (data.getD 2 0 + 4)).take fI ++ [0x75, 0x02, x, y] ++
        ((data.set 2 (data.getD 2 0 + 4)).drop fI).take 3))] := by
  unfold insertFuture
  dsimp only
  have hlb : (data.set 2 (data.getD 2 0 + 4)).length = data.length :=
    List.length_set data _ _
  have hPQlen : ((data.set 2 (data.getD 2 0 + 4)).take fI ++
      [0x75, 0x02, x, y]).length = fI + 4 := by
    simp only [List.length_append, List.length_take, List.length_cons, List.length_nil]
    omega
  have hshlen : ((data.set 2 (data.getD 2 0 + 4)).take fI ++ [0x75, 0x02, x, y] ++
      (data.set 2 (data.getD 2 0 + 4)).drop fI).length = data.length + 4 := by
    simp only [List.length_append, List.length_take, List.length_drop, List.length_cons,
      List.length_nil, hlb]
    omega
  rw [hshlen, show data.length + 4 - 1 = fI + 7 from by omega,
    List.take_append_eq_append_take,
    List.take_of_length_le (by rw [hPQlen]; omega), hPQlen,
    show fI + 7 - (fI + 4) = 3 from by omega]

theorem insertFuture_length (data : List Nat) (fI x y : Nat) (h4 : fI + 4 = data.length) :
    (insertFuture data fI x y).length = data.length + 4 := by
  rw [insertFuture_decomp data fI x y h4]
  simp only [List.length_append, List.length_take, List.length_drop, List.length_cons,
    List.length_nil, List.length_set]
  omega

theorem insertFuture_getElem_lt (data : List Nat) (fI x y j : Nat)
    (h4 : fI + 4 = data.length) (hj : j < fI) (hj2 : j ≠ 2) :
    (insertFuture data fI x y)[j]? = data[j]? := by
  rw [insertFuture_decomp data fI x y h4,
    List.getElem?_append_left (by
      simp only [List.length_append, List.length_take, List.length_drop,
        List.length_cons, List.length_nil, List.length_set]
      omega),
    List.getElem?_append_left (by
      simp only [List.length_append, List.length_take, List.length_cons,
        List.length_nil, List.length_set]
      omega),
    List.getElem?_append_left (by
      simp only [List.length_take, List.length_set]
      omega),
    List.getElem?_take_of_lt hj, List.getElem?_set_ne (by omega : 2 ≠ j)]

theorem insertFuture_getD_lt (data : List Nat) (fI x y j : Nat)
    (h4 : fI + 4 = data.length) (hj : j < fI) (hj2 : j ≠ 2) :
    (insertFuture data fI x y).getD j 0 = data.getD j 0 := by
  simp [List.getD_eq_getElem?_getD,
    insertFuture_getElem_lt data fI x y j h4 hj hj2]

theorem insertFuture_getD2 (data : List Nat) (fI x y : Nat)
    (h4 : fI + 4 = data.length) (h7 : 7 ≤ fI) :
    (insertFuture data fI x y).getD 2 0 = data.getD 2 0 + 4 := by
  rw [insertFuture_decomp data fI x y h4,
    getD_append_left _ _ 2 (by
      simp only [List.length_append, List.length_take, List.length_drop,
        List.length_cons, List.length_nil, List.length_set]
      omega),
    getD_append_left _ _ 2 (by
      simp only [List.length_append, List.length_take, List.length_cons,
        List.length_nil, List.length_set]
      omega),
    getD_append_left _ _ 2 (by
      simp only [List.length_take, List.length_set]
      omega),
    getD_take _ _ _ (by omega : 2 < fI), getD_set_self data 2 _ (by omega)]

theorem insertFuture_dropfI (data : List Nat) (fI x y : Nat)
    (h4 : fI + 4 = data.length) :
    (insertFuture data fI x y).drop fI =
      [0x75, 0x02, x, y] ++
        (((data.set 2 (data.getD 2 0 + 4)).drop fI).take 3 ++
          [negByte (wrapSum ((data.set 2 (data.getD 2 0 + 4)).take fI ++
            [0x75, 0x02, x, y] ++
            ((data.set 2 (data.getD 2 0 + 4)).drop fI).take 3))]) := by
  rw [insertFuture_decomp data fI x y h4]
  rw [show ((data.set 2 (data.getD 2 0 + 4)).take fI ++ [0x75, 0x02, x, y] ++
      ((data.set 2 (data.getD 2 0 + 4)).drop fI).take 3) ++
      [negByte (wrapSum ((data.set 2 (data.getD 2 0 + 4)).take fI ++ [0x75, 0x02, x, y] ++
        ((data.set 2 (data.getD 2 0 + 4)).drop fI).take 3))] =
      (data.set 2 (data.getD 2 0 + 4)).take fI ++
        ([0x75, 0x02, x, y] ++
          (((data.set 2 (data.getD 2 0 + 4)).drop fI).take 3 ++
            [negByte (wrapSum ((data.set 2 (data.getD 2 0 + 4)).take fI ++
              [0x75, 0x02, x, y] ++
              ((data.set 2 (data.getD 2 0 + 4)).drop fI).take 3))])) from by
    simp only [List.append_assoc]]
  exact List.drop_left' (by
    rw [List.length_take, List.length_set]
    omega)

theorem insertFuture_bytes (data : List Nat) (fI x y : Nat)
    (h4 : fI + 4 = data.length) (h7 : 7 ≤ fI) :
    (insertFuture data fI x y).getD fI 0 = 0x75 ∧
    (insertFuture data fI x y).getD (fI + 1) 0 = 0x02 ∧
    (insertFuture data fI x y).getD (fI + 4) 0 = data.getD fI 0 ∧
    (insertFuture data fI x y).getD (fI + 5) 0 = data.getD (fI + 1) 0 ∧
    (insertFuture data fI x y).getD (fI + 6) 0 = data.getD (fI + 2) 0 ∧
    (insertFuture data fI x y).getD (fI + 7) 0 =
      negByte (wrapSum ((data.set 2 (data.getD 2 0 + 4)).take fI ++ [0x75, 0x02, x, y] ++
        ((data.set 2 (data.getD 2 0 + 4)).drop fI).take 3)) := by
  have hC3len : (((data.set 2 (data.getD 2 0 + 4)).drop fI).take 3).length = 3 := by
    rw [List.length_take, List.length_drop, List.length_set]
    omega
  have hdrop := insertFuture_dropfI data fI x y h4
  generalize hc : negByte (wrapSum ((data.set 2 (data.getD 2 0 + 4)).take fI ++
    [0x75, 0x02, x, y] ++
    ((data.set 2 (data.getD 2 0 + 4)).drop fI).take 3)) = c at hdrop ⊢
  have hgk : ∀ k, (insertFuture data fI x y).getD (fI + k) 0 =
      ([0x75, 0x02, x, y] ++
        (((data.set 2 (data.getD 2 0 + 4)).drop fI).take 3 ++ [c])).getD k 0 := by
    intro k
    rw [← getD_drop, hdrop]
  have hC3g : ∀ m, m < 3 →
      (((data.set 2 (data.getD 2 0 + 4)).drop fI).take 3).getD m 0 =
        data.getD (fI + m) 0 := by
    intro m hm
    rw [getD_take _ _ _ hm, getD_drop, getD_set_ne data 2 _ (fI + m) (by omega)]
  refine ⟨(hgk 0).trans rfl, (hgk 1).trans rfl, ?_, ?_, ?_, ?_⟩
  · refine (hgk 4).trans ?_
    show ((((data.set 2 (data.getD 2 0 + 4)).drop fI).take 3) ++ [c]).getD 0 0 =
      data.getD fI 0
    rw [getD_append_left _ _ 0 (by omega)]
    exact hC3g 0 (by omega)
  · refine (hgk 5).trans ?_
    show ((((data.set 2 (data.getD 2 0 + 4)).drop fI).take 3) ++ [c]).getD 1 0 =
      data.getD (fI + 1) 0
    rw [getD_append_left _ _ 1 (by omega)]
    exact hC3g 1 (by omega)
  · refine (hgk 6).trans ?_
    show ((((data.set 2 (data.getD 2 0 + 4)).drop fI).take 3) ++ [c]).getD 2 0 =
      data.getD (fI + 2) 0
    rw [getD_append_left _ _ 2 (by omega)]
    exact hC3g 2 (by omega)
  · refine (hgk 7).trans ?_
    show ((((data.set 2 (data.getD 2 0 + 4)).drop fI).take 3) ++ [c]).getD 3 0 = c
    rw [getD_append_right _ _ 3 (by omega), hC3len]
    rfl

theorem insertFuture_take_pre (data : List Nat) (fI x y : Nat)
    (h4 : fI + 4 = data.length) :
    (insertFuture data fI x y).take ((insertFuture data fI x y).length - 1) =
      (data.set 2 (data.getD 2 0 + 4)).take fI ++ [0x75, 0x02, x, y] ++
        ((data.set 2 (data.getD 2 0 + 4)).drop fI).take 3 := by
  rw [insertFuture_length data fI x y h4, insertFuture_decomp data fI x y h4]
  exact List.take_left' (by
    simp only [List.length_append, List.length_take, List.length_drop, List.length_cons,
      List.length_nil, List.length_set]
    omega)

/-- C8 refuted as stated: `c5CexPacket` is accepted but its compared
checksum byte is not the packet's final byte, and inserting a well-formed
`0x75` section before its footer (with length byte and trailing byte
recomputed) yields `ChecksumFailed`, because the parser's checksum covers
all bytes up to the buffer's end while the stored checksum sits three past
the footer id. -/
theorem C8_counterexample :
    CDPParser.parseCore c5CexPacket = .ok c5CexResult ∧
    c5CexResult.chkIdx + 1 ≠ c5CexPacket.length ∧
    c8CexPacket = insertFuture c5CexPacket c5CexResult.footerIdx 0x00 0x00 ∧
    CDPParser.parseCore c8CexPacket = .error .checksumFailed :=
  ⟨by decide, by decide, by decide, by decide⟩

/-- C8 amended: for every accepted packet whose compared checksum byte is
the final byte (equivalently, the footer starts four bytes before the
end — true of every packet the writer produces), inserting a single
unknown section with id `0x75`, length byte 2 and an arbitrary 2-byte
payload just before the footer, with the declared-length byte bumped and
the checksum byte recomputed, yields a packet that parse also accepts
with the same sequence, framerate, time code, service info and cc
buffer. -/
theorem C8_future_section_amended (data : List Nat) (r : ParseOk) (x y : Nat)
    (h : CDPParser.parseCore data = .ok r)
    (hchk : r.footerIdx + 4 = data.length)
    (hmax : data.length + 4 ≤ 255) :
    ∃ rB, CDPParser.parseCore (insertFuture data r.footerIdx x y) = .ok rB ∧
      rB.sequence = r.sequence ∧ rB.framerate = r.framerate ∧
      rB.time_code = r.time_code ∧ rB.service_info = r.service_info ∧
      rB.ccBuf = r.ccBuf := by
  obtain ⟨hlen11, h0, h1, hlen2, hfr, hflags, hseq, hTC, hCC, hSVC, hpre, hFL, hPF, hCK⟩ :=
    parseCore_ok_inv data r h
  obtain ⟨hchk3, hfI4, hfty, hseqf⟩ :=
    parseFooter_inv data r.sequence r.footerIdx r.chkIdx hPF
  have hTCinv := parseTC_inv data r.flags r.time_code r.ccIdx hTC
  have hCCinv := parseCC_inv data r.flags r.ccIdx r.ccBuf r.svcIdx hCC
  have hSVCinv := parseSvc_inv data r.flags r.svcIdx r.service_info r.svcEnd hSVC
  have hFLinv := futureLoop_inv data r.svcEnd r.footerIdx hFL
  have hcc7 : 7 ≤ r.ccIdx := by
    rcases hTCinv with ⟨_, _, h7⟩ | ⟨_, h12, _⟩ <;> omega
  have hccsvc : r.ccIdx ≤ r.svcIdx := by
    rcases hCCinv with ⟨_, _, he⟩ | ⟨_, he, _⟩ <;> omega
  have hsvcend : r.svcIdx ≤ r.svcEnd := by
    rcases hSVCinv with ⟨_, _, he⟩ | ⟨_, he, _, _, _⟩ <;> omega
  have hendfI : r.svcEnd ≤ r.footerIdx := hFLinv.1
  have hlenB := insertFuture_length data r.footerIdx x y hchk
  have hbytes := insertFuture_bytes data r.footerIdx x y hchk (by omega)
  have hTCd : parseTC (insertFuture data r.footerIdx x y) r.flags =
      .ok (r.time_code, r.ccIdx) := by
    rcases hTCinv with ⟨hf0, htcnone, hcc7e⟩ | ⟨hf1, hcc12, _, _, _, _, _⟩
    · unfold parseTC
      rw [if_neg (by simp [hf0]), htcnone, hcc7e]
    · exact parseTC_mono data _ r.flags (r.time_code, r.ccIdx) hTC (by omega)
        (fun j hj1 hj2 => insertFuture_getD_lt data r.footerIdx x y j hchk
          (by omega) (by omega))
  have hCCd : parseCC (insertFuture data r.footerIdx x y) r.flags r.ccIdx =
      .ok (r.ccBuf, r.svcIdx) := by
    rcases hCCinv with ⟨hf0, hbufnone, hsvceq⟩ | ⟨hf1, hsvcIdxe, hsle, h72x, hfbx, hbufx⟩
    · rw [hbufnone, hsvceq]
      unfold parseCC
      rw [if_neg (by simp [hf0])]
    · exact parseCC_mono data _ r.flags r.ccIdx (r.ccBuf, r.svcIdx) hCC (by omega)
        (fun j hj1 hj2 => insertFuture_getElem_lt data r.footerIdx x y j hchk
          (by omega) (by omega))
  have hSVCd : parseSvcSection (insertFuture data r.footerIdx x y) r.flags r.svcIdx =
      .ok (r.service_info, r.svcEnd) := by
    rcases hSVCinv with ⟨hf0, hsinone, hsveq⟩ |
      ⟨hf1, hsvende, hsle, h73x, si, hsix, hsieq, hstx, hchx, hcox⟩
    · rw [hsinone, hsveq]
      unfold parseSvcSection
      rw [if_neg (by simp [hf0])]
    · exact parseSvc_mono data _ r.flags r.svcIdx (r.service_info, r.svcEnd) hSVC
        (by omega)
        (fun j hj1 hj2 => insertFuture_getElem_lt data r.footerIdx x y j hchk
          (by omega) (by omega))
  have hFLd : futureLoop (insertFuture data r.footerIdx x y) r.svcEnd =
      .ok (r.footerIdx + 4) :=
    futureLoopN_insert data _ r.footerIdx hlenB (by omega)
      (fun j hj7 hjf => insertFuture_getD_lt data r.footerIdx x y j hchk hjf (by omega))
      hbytes.1 hbytes.2.1 ((hbytes.2.2.1).trans hfty) data.length r.svcEnd (by omega) hFL
  have hb5 : (insertFuture data r.footerIdx x y).getD (r.footerIdx + 4 + 1) 0 =
      data.getD (r.footerIdx + 1) 0 := hbytes.2.2.2.1
  have hb6 : (insertFuture data r.footerIdx x y).getD (r.footerIdx + 4 + 2) 0 =
      data.getD (r.footerIdx + 2) 0 := hbytes.2.2.2.2.1
  have hPFd : parseFooter (insertFuture data r.footerIdx x y) r.sequence
      (r.footerIdx + 4) = .ok (r.footerIdx + 4 + 3) := by
    unfold parseFooter
    rw [if_neg (by omega :
        ¬(insertFuture data r.footerIdx x y).length < r.footerIdx + 4 + 4),
      show (insertFuture data r.footerIdx x y).getD (r.footerIdx + 4) 0 = 0x74 from
        (hbytes.2.2.1).trans hfty,
      if_neg (not_not_intro rfl)]
    dsimp only
    rw [hb5, hb6, ← hseqf, if_neg (not_not_intro rfl)]
  have hb7 : (insertFuture data r.footerIdx x y).getD (r.footerIdx + 4 + 3) 0 =
      negByte (wrapSum ((data.set 2 (data.getD 2 0 + 4)).take r.footerIdx ++
        [0x75, 0x02, x, y] ++
        ((data.set 2 (data.getD 2 0 + 4)).drop r.footerIdx).take 3)) :=
    hbytes.2.2.2.2.2
  have hCKd : checksumCheck (insertFuture data r.footerIdx x y)
      (r.footerIdx + 4 + 3) = .ok () := by
    unfold checksumCheck
    rw [insertFuture_take_pre data r.footerIdx x y hchk, hb7,
      if_neg (not_not_intro rfl)]
  refine ⟨⟨r.framerate, r.flags, r.sequence, r.time_code, r.ccBuf, r.service_info,
    r.ccIdx, r.svcIdx, r.svcEnd, r.footerIdx + 4, r.footerIdx + 4 + 3⟩, ?_,
    rfl, rfl, rfl, rfl, rfl⟩
  unfold CDPParser.parseCore
  dsimp only
  rw [if_neg (by omega : ¬(insertFuture data r.footerIdx x y).length < 11),
    insertFuture_getD_lt data r.footerIdx x y 0 hchk (by omega) (by omega),
    insertFuture_getD_lt data r.footerIdx x y 1 hchk (by omega) (by omega),
    if_neg (not_not_intro ⟨h0, h1⟩),
    insertFuture_getD2 data r.footerIdx x y hchk (by omega),
    if_neg (not_not_intro (show (insertFuture data r.footerIdx x y).length =
      data.getD 2 0 + 4 from by omega)),
    insertFuture_getD_lt data r.footerIdx x y 3 hchk (by omega) (by omega), hfr]
  dsimp only
  rw [insertFuture_getD_lt data r.footerIdx x y 4 hchk (by omega) (by omega), ← hflags,
    insertFuture_getD_lt data r.footerIdx x y 5 hchk (by omega) (by omega),
    insertFuture_getD_lt data r.footerIdx x y 6 hchk (by omega) (by omega), ← hseq,
    hTCd]
  dsimp only
  rw [hCCd]
  dsimp only
  rw [hSVCd]
  dsimp only
  rw [if_neg (by omega :
      ¬(insertFuture data r.footerIdx x y).length < r.svcEnd + 2), hFLd]
  dsimp only
  rw [hPFd]
  dsimp only
  rw [hCKd]

theorem C8_future_section_amended_witness :
    ∃ rB, CDPParser.parseCore
        (insertFuture minimalPacket c4MinResult.footerIdx 0xAB 0xCD) = .ok rB ∧
      rB.sequence = c4MinResult.sequence ∧ rB.framerate = c4MinResult.framerate ∧
      rB.time_code = c4MinResult.time_code ∧
      rB.service_info = c4MinResult.service_info ∧ rB.ccBuf = c4MinResult.ccBuf :=
  C8_future_section_amended minimalPacket c4MinResult 0xAB 0xCD (by decide) (by decide)
    (by decide)
